import Mathlib

/- Verification development for the Wavy AI WhatsApp bot
   (Stock Guard + Review Shield), a shallow embedding of
   src/app.py and src/review_monitor.py.

   Machine numbers in the sheet are modelled as rationals, timestamps as
   integers (seconds), the Supabase tables as lists of records, and the
   outbound WhatsApp transport as an append-only outbox.  External
   gateways (Google Sheets, Google Places, the LLM) are passed in as
   function parameters. -/

/-! ## Python-style string helpers (char-list based, kernel-evaluable) -/

/-- Characters of `str.strip()`. -/
def stripCL (l : List Char) : List Char :=
  ((l.dropWhile Char.isWhitespace).reverse.dropWhile Char.isWhitespace).reverse

/-- Python `str.strip()`. -/
def pyStrip (s : String) : String := String.mk (stripCL s.toList)

/-- Python `str.lower()` (ASCII case folding as used by the bot). -/
def pyLower (s : String) : String := String.mk (s.toList.map Char.toLower)

/-- Is `p` a prefix of `s` (char lists)? -/
def isPrefixCL : List Char → List Char → Bool
  | [], _ => true
  | _ :: _, [] => false
  | a :: as, b :: bs => a == b && isPrefixCL as bs

/-- Is `p` an infix of `s` (char lists)?  Models Python `p in s`. -/
def isInfixCL (p : List Char) : List Char → Bool
  | [] => isPrefixCL p []
  | b :: t => isPrefixCL p (b :: t) || isInfixCL p t

/-- Python `pat in s` on strings. -/
def containsSub (s pat : String) : Bool := isInfixCL pat.toList s.toList

/-- Supabase `ilike "%pat%"`: case-insensitive substring match. -/
def ilikeMatch (pat s : String) : Bool :=
  isInfixCL (pyLower pat).toList (pyLower s).toList

/-- Python `s[:n]`. -/
def strTake (s : String) (n : Nat) : String := String.mk (s.toList.take n)

/-- Python `s[n:]`. -/
def strDrop (s : String) (n : Nat) : String := String.mk (s.toList.drop n)

/-- Python `s.startswith(p)`. -/
def pyStartsWith (s p : String) : Bool := isPrefixCL p.toList s.toList

/-- Left-to-right non-overlapping deletion of `pat`, fuelled so that it
reduces structurally (the fuel is the input length, which always
suffices because every step consumes at least one character). -/
def replaceDelAux (pat : List Char) : Nat → List Char → List Char
  | _, [] => []
  | 0, s => s
  | fuel + 1, c :: rest =>
    if pat ≠ [] ∧ isPrefixCL pat (c :: rest) then
      replaceDelAux pat fuel (rest.drop (pat.length - 1))
    else c :: replaceDelAux pat fuel rest

/-- Characters of Python `s.replace(pat, "")` (delete every occurrence). -/
def replaceDelCL (pat : List Char) (s : List Char) : List Char :=
  replaceDelAux pat s.length s

/-- Python `s.replace(pat, "")`. -/
def pyReplaceDel (s pat : String) : String :=
  String.mk (replaceDelCL pat.toList s.toList)

/-- Render an optional string the way a Python f-string renders the result
of `dict.get`: a missing key prints as `None`. -/
def optReprS : Option String → String
  | some s => s
  | none => "None"

/-- Render an optional integer the way a Python f-string renders it. -/
def optReprI : Option Int → String
  | some i => toString i
  | none => "None"

/-- Python `o.get(k, "")` for a string-valued key. -/
def optS (o : Option String) : String := o.getD ""

/-- Python `a or b` where `a` is an optional string (both `None` and the
empty string are falsy). -/
def pyOrS (a : Option String) (b : String) : String :=
  match a with
  | some v => if v = "" then b else v
  | none => b

/-- Python `int()` truncation toward zero on a rational. -/
def pyIntTrunc (q : ℚ) : ℤ := if 0 ≤ q then ⌊q⌋ else -⌊-q⌋

/-- Python `round` to an integer: round half to even. -/
def roundHalfEven (x : ℚ) : ℤ :=
  let f := ⌊x⌋
  let frac := x - f
  if frac < 1/2 then f
  else if 1/2 < frac then f + 1
  else if f % 2 = 0 then f else f + 1

/-- Python `round(x, 1)`. -/
def pyRound1 (x : ℚ) : ℚ := (roundHalfEven (x * 10) : ℚ) / 10

/-- Decimal rendering used inside outbound message bodies. -/
def ratStr (q : ℚ) : String :=
  if q.den = 1 then toString q.num else toString q.num ++ "/" ++ toString q.den

/-! ## Data model (the five Supabase tables of src/app.py) -/

/-- Row of the `businesses` table. -/
structure Business where
  id : Nat
  name : String
  owner_phone : String
  sheets_url : Option String
  place_id : Option String
  google_place_id : Option String
deriving Repr, DecidableEq

/-- Row of the `stock_items` table. -/
structure StockItem where
  id : Nat
  business_id : Nat
  name : String
  current_quantity : ℚ
  unit : String
  reorder_threshold : ℚ
  reorder_quantity : ℚ
  supplier_name : String
  supplier_whatsapp : String
  last_updated : Int
deriving Repr, DecidableEq

/-- Row of the append-only `stock_movements` table. -/
structure StockMovement where
  business_id : Nat
  item_name : String
  quantity_change : ℚ
  new_quantity : ℚ
  type : String
  recorded_at : Int
deriving Repr, DecidableEq

/-- Alert candidate record built by `check_stock_levels` (src/app.py). -/
structure AlertItem where
  name : String
  qty : ℚ
  unit : String
  threshold : ℚ
  reorder : ℚ
  supplier_name : String
  supplier_wa : String
  days_left : Option ℚ
deriving Repr, DecidableEq

/-- The JSON snapshot stored in `pending_actions.item_data`: either a
`stock_items` row (purchase orders) or an alert dict (stock alerts). -/
inductive ItemData where
  | stock (i : StockItem)
  | alert (a : AlertItem)
deriving Repr, DecidableEq

/-- Python `json.loads(item_data).get("supplier_whatsapp", "")`: the alert
dict stores the number under the key `supplier_wa`, so the lookup misses. -/
def ItemData.getSupplierWhatsapp : ItemData → String
  | .stock i => i.supplier_whatsapp
  | .alert _ => ""

/-- Python `json.loads(item_data).get("supplier_name")`. -/
def ItemData.getSupplierName : ItemData → Option String
  | .stock i => some i.supplier_name
  | .alert a => some a.supplier_name

/-- Row of the `pending_actions` table. -/
structure PendingAction where
  id : Nat
  business_id : Nat
  owner_phone : String
  action_type : String
  item_name : Option String
  item_data : Option ItemData
  review_id : Option String
  draft_reply : Option String
  status : String
  created_at : Int
deriving Repr, DecidableEq

/-- Row of the `seen_reviews` table. -/
structure SeenReview where
  review_id : String
  business_id : Nat
  reviewer_name : String
  rating : ℚ
  review_text : String
  reply_draft : Option String
  replied : Bool
deriving Repr, DecidableEq

/-- The whole Supabase database.  `nextId` models the id sequence. -/
structure DB where
  businesses : List Business
  stock_items : List StockItem
  stock_movements : List StockMovement
  pending_actions : List PendingAction
  seen_reviews : List SeenReview
  nextId : Nat
deriving Repr, DecidableEq

/-- Database plus the outbound WhatsApp transport, modelled as an
append-only list of (recipient, body) pairs. -/
structure SysState where
  db : DB
  outbox : List (String × String)
deriving Repr, DecidableEq

/-- `send_whatsapp` (src/app.py lines 41-46): no-op when Twilio is not
configured, otherwise normalize the recipient and send. -/
def send_whatsapp (cfg : Bool) (s : SysState) (toAddr msg : String) : SysState :=
  if cfg = false then s
  else
    let to2 := if pyStartsWith toAddr ("whatsapp:") then toAddr else "whatsapp:" ++ toAddr
    { s with outbox := s.outbox ++ [(to2, msg)] }

/-- `get_business` (src/app.py lines 49-55): normalize the Twilio sender
address and look the phone up in `businesses`. -/
def get_business (db : DB) (sender : String) : Option Business :=
  let phone := pyStrip (pyReplaceDel sender ("whatsapp:"))
  if phone = "" then none
  else db.businesses.find? (fun b => b.owner_phone == phone)

/-! ## Stock Guard (src/app.py lines 123-266) -/

/-- One spreadsheet row after header zipping (src/app.py lines 112-117).
A numeric field is `none` when `float(...)` would raise (the empty-cell
case `row.get(...) or 0` is already folded into a `some 0`). -/
structure SheetRow where
  itemName : String
  currentQuantity : Option ℚ
  reorderThreshold : Option ℚ
  reorderQuantity : Option ℚ
  unit : String
  supplierName : String
  supplierWa : String
deriving Repr, DecidableEq

/-- Row validation shared by `sync_stock_to_supabase` and
`check_stock_levels` (src/app.py lines 125-133 and 196-204): drop rows
with an empty item name or a non-numeric quantity/threshold/reorder. -/
def rowValid (row : SheetRow) : Option (ℚ × ℚ × ℚ) :=
  if row.itemName = "" then none
  else
    match row.currentQuantity, row.reorderThreshold, row.reorderQuantity with
    | some qty, some threshold, some reorder => some (qty, threshold, reorder)
    | _, _, _ => none

/-- First `stock_items` row matching `(business_id, name)`. -/
def findItem (db : DB) (bid : Nat) (nm : String) : Option StockItem :=
  db.stock_items.find? (fun i => i.business_id == bid && i.name == nm)

/-- Quantity currently stored for `(business_id, name)`. -/
def storedQty (db : DB) (bid : Nat) (nm : String) : Option ℚ :=
  (findItem db bid nm).map StockItem.current_quantity

/-- The per-item update of src/app.py lines 142-148: overwrite the
numeric fields, unit and timestamp of the row whose id matched. -/
def updItem (row : SheetRow) (qty threshold reorder : ℚ) (now : Int) (eid : Nat)
    (i : StockItem) : StockItem :=
  if i.id == eid then
    { i with current_quantity := qty, reorder_threshold := threshold,
             reorder_quantity := reorder, unit := row.unit, last_updated := now }
  else i

/-- Body of the `sync_stock_to_supabase` loop (src/app.py lines 124-169):
upsert one sheet row into `stock_items`, appending a `StockMovement`
exactly when an existing row's quantity changed. -/
def syncRow (biz : Business) (now : Int) (db : DB) (row : SheetRow) : DB :=
  match rowValid row with
  | none => db
  | some (qty, threshold, reorder) =>
    match findItem db biz.id row.itemName with
    | some existing =>
      let items2 := db.stock_items.map (updItem row qty threshold reorder now existing.id)
      let db1 := { db with stock_items := items2 }
      if qty ≠ existing.current_quantity then
        { db1 with stock_movements := db1.stock_movements ++
          [{ business_id := biz.id, item_name := row.itemName,
             quantity_change := qty - existing.current_quantity,
             new_quantity := qty, type := "sheet_update", recorded_at := now }] }
      else db1
    | none =>
      { db with
        stock_items := db.stock_items ++
          [{ id := db.nextId
             business_id := biz.id
             name := row.itemName
             current_quantity := qty
             unit := row.unit
             reorder_threshold := threshold
             reorder_quantity := reorder
             supplier_name := row.supplierName
             supplier_whatsapp := row.supplierWa
             last_updated := now }]
        nextId := db.nextId + 1 }

/-- `sync_stock_to_supabase` (src/app.py lines 123-169). -/
def sync_stock_to_supabase (biz : Business) (now : Int) (db : DB) (rows : List SheetRow) : DB :=
  rows.foldl (syncRow biz now) db

/-- The movement filter used by `predict_stockout`: negative movements
for the item within the trailing 7 days. -/
def negMovementsWindow (db : DB) (now : Int) (bid : Nat) (nm : String) : List StockMovement :=
  db.stock_movements.filter (fun m =>
    m.business_id == bid && m.item_name == nm &&
    decide (m.quantity_change < 0) && decide (now - 604800 ≤ m.recorded_at))

/-- `predict_stockout` (src/app.py lines 172-190): days-to-stockout from
the 7-day consumption rate, rounded to one decimal. -/
def predict_stockout (db : DB) (now : Int) (bid : Nat) (nm : String) (current_qty : ℚ) : Option ℚ :=
  let movements := negMovementsWindow db now bid nm
  if movements.isEmpty then none
  else
    let total_used := (movements.map (fun m => |m.quantity_change|)).sum
    let daily_usage := total_used / 7
    if 0 < daily_usage then some (pyRound1 (current_qty / daily_usage)) else none

/-- Body of the `check_stock_levels` loop (src/app.py lines 195-216). -/
def alertOfRow (db : DB) (now : Int) (biz : Business) (row : SheetRow) : Option AlertItem :=
  match rowValid row with
  | none => none
  | some (qty, threshold, reorder) =>
    if qty ≤ threshold then
      some { name := row.itemName, qty := qty, unit := row.unit,
             threshold := threshold, reorder := reorder,
             supplier_name := row.supplierName, supplier_wa := row.supplierWa,
             days_left := predict_stockout db now biz.id row.itemName qty }
    else none

/-- `check_stock_levels` (src/app.py lines 193-217). -/
def check_stock_levels (db : DB) (now : Int) (biz : Business) (rows : List SheetRow) : List AlertItem :=
  rows.filterMap (alertOfRow db now biz)

/-- The estimated-stockout line of a stock alert (src/app.py line 233).
Python tests `item.get("days_left")` for truthiness, so both `None` and
`0.0` suppress the line. -/
def days_str (dl : Option ℚ) : String :=
  match dl with
  | some d => if d = 0 then "" else "\n⏰ Estimated stockout in *" ++ ratStr d ++ " days*"
  | none => ""

/-- Body of the outbound stock-alert message (src/app.py lines 234-241). -/
def alertBody (item : AlertItem) : String :=
  "📦 *Stock Alert — " ++ item.name ++ "*\n\nCurrent: *" ++ ratStr item.qty ++ " " ++
  item.unit ++ "*\nReorder point: " ++ ratStr item.threshold ++ " " ++ item.unit ++
  days_str item.days_left ++ "\nSupplier: " ++ item.supplier_name ++
  "\n\nReply *ORDER " ++ item.name ++ "* to draft a purchase order\nReply *IGNORE " ++
  item.name ++ "* to snooze"

/-- The cool-down query of `send_stock_alerts` (src/app.py lines 222-230):
stock-alert pending actions for the business created within 4 hours. -/
def recentStockAlerts (db : DB) (bid : Nat) (now : Int) : List PendingAction :=
  db.pending_actions.filter (fun r =>
    r.business_id == bid && r.action_type == "stock_alert" &&
    decide (now - 14400 ≤ r.created_at))

/-- Body of the `send_stock_alerts` loop (src/app.py lines 221-251):
skip the item while inside the 4-hour cool-down window, otherwise page the
owner and record a `stock_alert` pending action. -/
def processAlert (cfg : Bool) (biz : Business) (now : Int) (s : SysState) (item : AlertItem) : SysState :=
  let recent := recentStockAlerts s.db biz.id now
  if !recent.isEmpty && recent.any (fun r => r.item_name == some item.name) then s
  else
    let s1 := send_whatsapp cfg s biz.owner_phone (alertBody item)
    { s1 with
      db := { s1.db with
              pending_actions := s1.db.pending_actions ++
                [{ id := s1.db.nextId
                   business_id := biz.id
                   owner_phone := biz.owner_phone
                   action_type := "stock_alert"
                   item_name := some item.name
                   item_data := some (ItemData.alert item)
                   review_id := none
                   draft_reply := none
                   status := "pending"
                   created_at := now }]
              nextId := s1.db.nextId + 1 } }

/-- `send_stock_alerts` (src/app.py lines 220-251). -/
def send_stock_alerts (cfg : Bool) (biz : Business) (now : Int) (s : SysState) (alerts : List AlertItem) : SysState :=
  alerts.foldl (processAlert cfg biz now) s

/-! ## Conversational action router (src/app.py lines 269-348, 436-512) -/

/-- Mark a pending action's status (src/app.py line 328 / 490). -/
def updateStatus (db : DB) (aid : Nat) (st : String) : DB :=
  { db with pending_actions := db.pending_actions.map (fun a =>
      if a.id == aid then { a with status := st } else a) }

/-- The supplier order message drafted by `handle_order_command`
(src/app.py lines 280-288). -/
def orderMsg (business : Business) (item : StockItem) : String :=
  "Hi " ++ item.supplier_name ++ ",\n\nWe\x27d like to place an order:\n• " ++
  item.name ++ ": " ++ ratStr item.reorder_quantity ++ " " ++ item.unit ++
  "\n\nPlease confirm availability and delivery time.\n\nThanks,\n" ++ business.name

/-- The stock items matching `ilike "%item_name%"` for the business
(src/app.py lines 270-276). -/
def orderMatches (db : DB) (business : Business) (item_name : String) : List StockItem :=
  db.stock_items.filter (fun i => i.business_id == business.id && ilikeMatch item_name i.name)

/-- `handle_order_command` (src/app.py lines 269-306). -/
def handle_order_command (business : Business) (now : Int) (s : SysState) (item_name : String) : SysState × String :=
  match orderMatches s.db business item_name with
  | [] => (s, "I couldn\x27t find \x27" ++ item_name ++ "\x27 in your stock list.")
  | item :: _ =>
    let om := orderMsg business item
    let db2 :=
      { s.db with
        pending_actions := s.db.pending_actions ++
          [{ id := s.db.nextId
             business_id := business.id
             owner_phone := business.owner_phone
             action_type := "purchase_order"
             item_name := some item.name
             item_data := some (ItemData.stock item)
             review_id := none
             draft_reply := some om
             status := "pending"
             created_at := now }]
        nextId := s.db.nextId + 1 }
    ({ s with db := db2 },
     "📋 *Purchase Order Draft*\nItem: " ++ item.name ++ " — " ++
     ratStr item.reorder_quantity ++ " " ++ item.unit ++ "\nSupplier: " ++
     item.supplier_name ++ "\n\nMessage:\n\"" ++ om ++
     "\"\n\nReply *SEND ORDER* to send to supplier via WhatsApp")

/-- Pending purchase orders for the business, in table order
(src/app.py lines 310-317). -/
def pendingPurchaseOrders (db : DB) (business : Business) : List PendingAction :=
  db.pending_actions.filter (fun a =>
    a.business_id == business.id && a.action_type == "purchase_order" && a.status == "pending")

/-- Supplier WhatsApp address recovered from an action's `item_data`
(src/app.py lines 321-322). -/
def actionSupplierWa (a : PendingAction) : String :=
  match a.item_data with
  | some d => d.getSupplierWhatsapp
  | none => ""

/-- Supplier name recovered from an action's `item_data`. -/
def actionSupplierName (a : PendingAction) : Option String :=
  match a.item_data with
  | some d => d.getSupplierName
  | none => none

/-- `handle_send_order` (src/app.py lines 309-329). -/
def handle_send_order (cfg : Bool) (business : Business) (s : SysState) : SysState × String :=
  match pendingPurchaseOrders s.db business with
  | [] => (s, "No pending purchase orders found.")
  | action :: _ =>
    let supplier_wa := actionSupplierWa action
    if supplier_wa = "" then
      (s, "No WhatsApp number for " ++ optReprS (actionSupplierName action) ++
          ". Add it to your Google Sheet.")
    else
      let wa2 := if pyStartsWith supplier_wa ("whatsapp:") then supplier_wa
                 else "whatsapp:" ++ supplier_wa
      let s1 := send_whatsapp cfg s wa2 (optS action.draft_reply)
      ({ s1 with db := updateStatus s1.db action.id ("completed") },
       "✅ Order sent to " ++ optReprS (actionSupplierName action) ++ "!")

/-- One line of the stock summary (src/app.py lines 342, 347). -/
def stockLine (i : StockItem) : String :=
  "• " ++ i.name ++ ": " ++ ratStr i.current_quantity ++ " " ++ i.unit ++ "\n"

/-- `handle_check_stock` (src/app.py lines 332-348). -/
def handle_check_stock (business : Business) (db : DB) : String :=
  let items := db.stock_items.filter (fun i => i.business_id == business.id)
  if items.isEmpty then
    "No stock items yet. Type *sync stock* to load from your Google Sheet."
  else
    let low := items.filter (fun i => decide (i.current_quantity ≤ i.reorder_threshold))
    let ok := items.filter (fun i => decide (i.reorder_threshold < i.current_quantity))
    let m0 := "📦 *Stock — " ++ business.name ++ "*\n\n"
    let m1 := if !low.isEmpty then
        m0 ++ "🔴 *Needs Reordering:*\n" ++ String.join (low.map stockLine) ++ "\n"
      else m0
    if !ok.isEmpty then m1 ++ "✅ *OK:*\n" ++ String.join (ok.map stockLine) else m1

/-! ## Review gateway shapes (legacy Places API, src/app.py) -/

/-- Raw review dict from the legacy Places details endpoint. -/
structure RawReviewLegacy where
  author_name : Option String
  rating : Option ℚ
  text : Option String
  time : Option Int
deriving Repr, DecidableEq

/-- Result dict of `get_reviews` (src/app.py lines 354-363). -/
structure PlaceData where
  rating : Option ℚ
  user_ratings_total : Option Nat
  reviews : List RawReviewLegacy
deriving Repr, DecidableEq

/-- Stars rendered by `'⭐' * int(rating)`. -/
def starsOf (q : ℚ) : String := String.mk (List.replicate (pyIntTrunc q).toNat '⭐')

/-- One line of the manual `check reviews` summary (src/app.py line 472). -/
def reviewLine (r : RawReviewLegacy) : String :=
  "*" ++ optReprS r.author_name ++ "* " ++ starsOf (r.rating.getD 0) ++ "\n\"" ++
  strTake (pyOrS r.text "") 100 ++ "\"\n\n"

/-- The effective place id `business.get("place_id") or
business.get("google_place_id")` (src/app.py lines 384, 466). -/
def effectivePlaceId (business : Business) : String :=
  pyOrS business.place_id (pyOrS business.google_place_id "")

/-- The manual `check reviews` branch reply (src/app.py lines 465-475). -/
def reviewSummary (business : Business) (fetchPlace : String → Option PlaceData) : String :=
  let pid := effectivePlaceId business
  let pd := if pid = "" then none else fetchPlace pid
  match pd with
  | some place_data =>
    "⭐ " ++ (match place_data.rating with
              | some q => ratStr q
              | none => "None") ++ "/5 (" ++
    (match place_data.user_ratings_total with
     | some n => toString n
     | none => "None") ++ " total)\n\n" ++
    String.join ((place_data.reviews.take 5).map reviewLine)
  | none => "Google Reviews not connected (set place_id on your business)."

/-! ## Webhook dispatcher (src/app.py lines 436-512) -/

/-- Outcome of one LLM completion call. -/
inductive LLMResult where
  | ok (text : String)
  | err (msg : String)
deriving Repr, DecidableEq

/-- Command predicate of the `order ` branch (src/app.py line 451). -/
def isOrderCmd (m : String) : Bool := pyStartsWith m ("order ")

/-- Command predicate of the send-order branch (src/app.py line 453). -/
def isSendOrderCmd (m : String) : Bool :=
  m == "send order" || m == "yes send" || m == "send it"

/-- Command predicate of the stock-summary branch (src/app.py line 455). -/
def isCheckStockCmd (m : String) : Bool :=
  containsSub m ("check stock") || containsSub m ("stock levels") ||
  containsSub m ("my stock") || containsSub m ("show stock")

/-- Command predicate of the sync branch (src/app.py line 457). -/
def isSyncStockCmd (m : String) : Bool := m == "sync stock"

/-- Command predicate of the review-summary branch (src/app.py line 465). -/
def isCheckReviewsCmd (m : String) : Bool :=
  containsSub m ("check reviews") || containsSub m ("my reviews")

/-- Command predicate of the approval branch (src/app.py line 478). -/
def isApproveCmd (m : String) : Bool :=
  m == "yes" || m == "approve" || m == "post it"

/-- Pending review replies for the business (src/app.py lines 479-487). -/
def pendingReviewReplies (db : DB) (business : Business) : List PendingAction :=
  db.pending_actions.filter (fun a =>
    a.business_id == business.id && a.action_type == "review_reply" && a.status == "pending")

/-- The free-form chat fallback (src/app.py lines 496-509): returns the
LLM text verbatim, or an apologetic message with the error inlined. -/
def chatReply (llm : LLMResult) : String :=
  match llm with
  | .ok t => t
  | .err e => "Sorry, I couldn\x27t reach the AI: " ++ e

/-- The fixed reply to unregistered senders (src/app.py line 445). -/
def notRegisteredMsg : String := "Welcome to Wavy AI! You\x27re not registered yet."

/-- `webhook` (src/app.py lines 436-512): resolve the business from the
sender address, dispatch on the normalized message, fall through to chat.
External gateways are the parameters `sheetRows` (the rows
`read_stock_sheet` would return), `fetchPlace` (Google Places) and `llm`
(the Claude call).  Returns the new state and the single text reply
wrapped in the TwiML envelope. -/
def webhook (cfg : Bool) (now : Int) (sheetRows : List SheetRow)
    (fetchPlace : String → Option PlaceData) (llm : LLMResult)
    (s : SysState) (sender body : String) : SysState × String :=
  let incoming := pyStrip body
  let msg_lower := pyLower incoming
  match get_business s.db sender with
  | none => (s, notRegisteredMsg)
  | some business =>
    if isOrderCmd msg_lower then
      handle_order_command business now s (pyStrip (strDrop incoming 6))
    else if isSendOrderCmd msg_lower then
      handle_send_order cfg business s
    else if isCheckStockCmd msg_lower then
      (s, handle_check_stock business s.db)
    else if isSyncStockCmd msg_lower then
      let db2 := sync_stock_to_supabase business now s.db sheetRows
      ({ s with db := db2 },
       if !sheetRows.isEmpty then
         "✅ Synced " ++ toString sheetRows.length ++ " items from your Google Sheet."
       else "Couldn\x27t read sheet. Add sheets_url to your business or set SHEET_URL.")
    else if isCheckReviewsCmd msg_lower then
      (s, reviewSummary business fetchPlace)
    else if isApproveCmd msg_lower then
      match (pendingReviewReplies s.db business).head? with
      | some action =>
        ({ s with db := updateStatus s.db action.id ("completed") },
         "✅ Reply saved:\n\"" ++ optReprS action.draft_reply ++
         "\"\n\nPaste this into Google Reviews.")
      | none => (s, chatReply llm)
    else (s, chatReply llm)

/-! ## Review ingestion, app.py variant
(src/app.py `check_reviews_for_all_businesses`, lines 381-420) -/

/-- Derived review identity of the app.py engine (line 391):
`f"{place_id}_{review.get('time')}"`. -/
def appReviewId (pid : String) (rev : RawReviewLegacy) : String :=
  pid ++ "_" ++ optReprI rev.time

/-- Owner alert body for one new review (src/app.py lines 407-411). -/
def appAlertBody (reviewer : String) (rating : ℚ) (text reply_draft : String) : String :=
  (if rating ≤ 3 then "🚨 *URGENT*\n\n" else "⭐ *New Review*\n\n") ++
  "*" ++ reviewer ++ "* " ++ starsOf rating ++ "\n\"" ++ strTake text 300 ++
  "\"\n\n*Suggested reply:*\n\"" ++ reply_draft ++ "\"\n\nReply *YES* to approve."

/-- Body of the per-review loop of `check_reviews_for_all_businesses`
(src/app.py lines 390-420): dedup on `review_id`, then persist the seen
review, alert the owner, and record a `review_reply` pending action.
`draft` is the LLM gateway (`draft_review_reply`, which already
fails soft internally). -/
def processReviewApp (cfg : Bool) (now : Int)
    (draft : String → String → ℚ → String → String)
    (business : Business) (pid : String) (s : SysState) (rev : RawReviewLegacy) : SysState :=
  let review_id := appReviewId pid rev
  if s.db.seen_reviews.any (fun r => r.review_id == review_id) then s
  else
    let reviewer := rev.author_name.getD ("Someone")
    let rating := rev.rating.getD 0
    let text := rev.text.getD ""
    let reply_draft := draft business.name reviewer rating text
    let s1 := { s with db := { s.db with seen_reviews := s.db.seen_reviews ++
        [{ review_id := review_id
           business_id := business.id
           reviewer_name := reviewer
           rating := rating
           review_text := text
           reply_draft := some reply_draft
           replied := false }] } }
    let s2 := send_whatsapp cfg s1 business.owner_phone
                (appAlertBody reviewer rating text reply_draft)
    { s2 with
      db := { s2.db with
              pending_actions := s2.db.pending_actions ++
                [{ id := s2.db.nextId
                   business_id := business.id
                   owner_phone := business.owner_phone
                   action_type := "review_reply"
                   item_name := none
                   item_data := none
                   review_id := some review_id
                   draft_reply := some reply_draft
                   status := "pending"
                   created_at := now }]
              nextId := s2.db.nextId + 1 } }

/-- `check_reviews_for_all_businesses` (src/app.py lines 381-420). -/
def check_reviews_for_all_businesses (cfg : Bool) (now : Int)
    (fetchPlace : String → Option PlaceData)
    (draft : String → String → ℚ → String → String) (s : SysState) : SysState :=
  s.db.businesses.foldl (fun acc business =>
    let pid := effectivePlaceId business
    if pid = "" then acc
    else
      match fetchPlace pid with
      | none => acc
      | some place_data =>
        place_data.reviews.foldl (processReviewApp cfg now draft business pid) acc) s

/-! ## Review ingestion, review_monitor.py variant
(src/review_monitor.py `run_review_check`, lines 113-188) -/

/-- The `text` value of a raw review: the legacy API returns a plain
string, the New API a nested `{"text": ...}` object
(src/review_monitor.py lines 152-156). -/
inductive ReviewText where
  | str (s : String)
  | nested (t : Option String)
  | missing
deriving Repr, DecidableEq

/-- Normalization of the review text (src/review_monitor.py lines 152-156). -/
def ReviewText.norm : ReviewText → String
  | .str s => s
  | .nested t => optS t
  | .missing => ""

/-- Raw review dict as handled by src/review_monitor.py lines 147-156
(union of the legacy and New API shapes). -/
structure RawReview where
  attributionName : Option String
  author_name : Option String
  rating : Option ℚ
  text : ReviewText
deriving Repr, DecidableEq

/-- Author resolution (src/review_monitor.py line 150). -/
def monAuthor (rev : RawReview) : String :=
  pyOrS rev.attributionName (pyOrS rev.author_name ("Someone"))

/-- Rating resolution `rev.get("rating") or 0` (line 151). -/
def monRating (rev : RawReview) : ℚ := rev.rating.getD 0

/-- Derived review identity of the monitor engine (line 157):
`f"{resolved_id}|{author}|{text[:50]}"`. -/
def monReviewId (rid : String) (rev : RawReview) : String :=
  rid ++ "|" ++ monAuthor rev ++ "|" ++ strTake rev.text.norm 50

/-- The `seen_reviews` row the monitor inserts (lines 161-168; it stores
no reply draft). -/
def mkSeenMon (biz : Business) (rid : String) (rev : RawReview) : SeenReview :=
  { review_id := monReviewId rid rev
    business_id := biz.id
    reviewer_name := monAuthor rev
    rating := monRating rev
    review_text := rev.text.norm
    reply_draft := none
    replied := false }

/-- Owner alert body (src/review_monitor.py lines 176-177). -/
def monAlertBody (biz : Business) (rev : RawReview) : String :=
  (if monRating rev ≠ 0 ∧ pyIntTrunc (monRating rev) ≤ 3 then "⚠️ Low rating – " else "") ++
  "New review for " ++ biz.name ++ "\n\n" ++ monAuthor rev ++ " – " ++
  ratStr (monRating rev) ++ " stars\n" ++ strTake rev.text.norm 300

/-- Body of the per-review loop of `run_review_check`
(src/review_monitor.py lines 147-187): dedup on `review_id`, persist the
review, and alert the owner only when this is not a backfill run and
Twilio is configured. -/
def processReviewMon (twilioCfg : Bool) (biz : Business) (rid : String)
    (is_backfill : Bool) (s : SysState) (rev : RawReview) : SysState :=
  let review_id := monReviewId rid rev
  if s.db.seen_reviews.any (fun r => r.review_id == review_id) then s
  else
    let s1 := { s with db := { s.db with
                 seen_reviews := s.db.seen_reviews ++ [mkSeenMon biz rid rev] } }
    if is_backfill then s1
    else
      let to0 := biz.owner_phone
      let to_phone := if to0 ≠ "" ∧ ¬ (pyStartsWith to0 ("whatsapp:") = true) then
          "whatsapp:" ++ to0 else to0
      if twilioCfg ∧ to_phone ≠ "" then
        { s1 with outbox := s1.outbox ++ [(to_phone, monAlertBody biz rev)] }
      else s1

/-- Per-business part of `run_review_check` (src/review_monitor.py lines
140-187): the backfill flag is computed once, from whether any
`seen_reviews` row exists for the business, before the review loop runs. -/
def checkBusinessMon (twilioCfg : Bool) (biz : Business) (rid : String)
    (reviews : List RawReview) (s : SysState) : SysState :=
  let is_backfill := !(s.db.seen_reviews.any (fun r => r.business_id == biz.id))
  reviews.foldl (processReviewMon twilioCfg biz rid is_backfill) s

/-- `run_review_check` (src/review_monitor.py lines 113-188).  `resolve`
models `resolve_to_chij_place_id` and `fetch` models
`get_place_reviews` (returning an error string or the review list). -/
def run_review_check (twilioCfg : Bool) (resolve : String → String → String)
    (fetch : String → Except String (List RawReview)) (s : SysState) : SysState :=
  let businesses := s.db.businesses.filter (fun b => b.place_id.isSome)
  if businesses.isEmpty then s
  else
    businesses.foldl (fun acc biz =>
      match biz.place_id with
      | none => acc
      | some pid =>
        if pid = "" then acc
        else
          let resolved := resolve pid biz.name
          match fetch resolved with
          | .error _ => acc
          | .ok [] => acc
          | .ok reviews => checkBusinessMon twilioCfg biz resolved reviews acc) s

/-! ## Shared helper lemmas -/

/-- A list is a prefix of itself followed by anything. -/
lemma isPrefixCL_self_append (p t : List Char) : isPrefixCL p (p ++ t) = true := by
  induction p with
  | nil => rfl
  | cons a as ih => simp [isPrefixCL, ih]

/-- Prepending a string yields a string starting with it. -/
lemma pyStartsWith_prepend (pre x : String) : pyStartsWith (pre ++ x) pre = true := by
  unfold pyStartsWith
  have h : (pre ++ x).toList = pre.toList ++ x.toList := by
    simp [String.toList, String.data_append]
  rw [h]
  exact isPrefixCL_self_append _ _

/-- Negative movements in the 7-day window have positive total usage. -/
lemma negMovements_sum_pos (db : DB) (now : Int) (bid : Nat) (nm : String)
    (h : negMovementsWindow db now bid nm ≠ []) :
    0 < ((negMovementsWindow db now bid nm).map (fun m => |m.quantity_change|)).sum := by
  apply List.sum_pos
  · intro x hx
    obtain ⟨m, hm, rfl⟩ := List.mem_map.mp hx
    have hp := (List.mem_filter.mp hm).2
    simp only [Bool.and_eq_true, decide_eq_true_eq] at hp
    exact abs_pos.mpr (ne_of_lt hp.1.2)
  · simpa using h

/-- The daily usage rate computed by `predict_stockout` is positive
whenever any negative movement lies in the window. -/
lemma negMovements_daily_pos (db : DB) (now : Int) (bid : Nat) (nm : String)
    (h : negMovementsWindow db now bid nm ≠ []) :
    0 < ((negMovementsWindow db now bid nm).map (fun m => |m.quantity_change|)).sum / 7 := by
  exact div_pos (negMovements_sum_pos db now bid nm h) (by norm_num)

/-- `predict_stockout` in the populated case. -/
lemma predict_stockout_some (db : DB) (now : Int) (bid : Nat) (nm : String) (qty : ℚ)
    (h : negMovementsWindow db now bid nm ≠ []) :
    predict_stockout db now bid nm qty =
      some (pyRound1 (qty /
        (((negMovementsWindow db now bid nm).map (fun m => |m.quantity_change|)).sum / 7))) := by
  unfold predict_stockout
  rw [if_neg (by simpa [List.isEmpty_iff] using h)]
  rw [if_pos (negMovements_daily_pos db now bid nm h)]

/-- `predict_stockout` in the empty-window case. -/
lemma predict_stockout_none (db : DB) (now : Int) (bid : Nat) (nm : String) (qty : ℚ)
    (h : negMovementsWindow db now bid nm = []) :
    predict_stockout db now bid nm qty = none := by
  unfold predict_stockout
  rw [if_pos (by simpa [List.isEmpty_iff] using h)]

/-- A one-movement database realizing the spec's worked forecast example. -/
def forecastExampleDb : DB :=
  ⟨[], [], [⟨7, "Oil Filters", -70, 30, "sheet_update", 999999⟩], [], [], 0⟩

/-! ## C5: days-to-stockout forecast -/

/-- C5: for every under-threshold item the days-to-stockout estimate is
the current quantity divided by the 7-day average absolute negative
movement, rounded to one decimal; it is `none` exactly when no negative
movement lies in the trailing 7 days.  The last conjunct is the spec's
worked example: movements totaling -70 with current quantity 20 give 2.0. -/
theorem c5_stockout_forecast (db : DB) (now : Int) (bid : Nat) (nm : String) (qty : ℚ) :
    (negMovementsWindow db now bid nm ≠ [] →
      predict_stockout db now bid nm qty =
        some (pyRound1 (qty /
          (((negMovementsWindow db now bid nm).map (fun m => |m.quantity_change|)).sum / 7)))) ∧
    (negMovementsWindow db now bid nm = [] →
      predict_stockout db now bid nm qty = none) ∧
    predict_stockout forecastExampleDb 1000000 7 ("Oil Filters") 20 = some 2 := by
  refine ⟨predict_stockout_some db now bid nm qty, predict_stockout_none db now bid nm qty, ?_⟩
  have hne : negMovementsWindow forecastExampleDb 1000000 7 ("Oil Filters") =
      [⟨7, "Oil Filters", -70, 30, "sheet_update", 999999⟩] := by
    unfold negMovementsWindow forecastExampleDb
    simp [List.filter]
  rw [predict_stockout_some _ _ _ _ 20 (by rw [hne]; exact List.cons_ne_nil _ _), hne]
  norm_num [pyRound1, roundHalfEven]

/-- Witness for C5 at the spec's worked example. -/
theorem c5_stockout_forecast_witness :
    negMovementsWindow forecastExampleDb 1000000 7 ("Oil Filters") ≠ [] ∧
    predict_stockout forecastExampleDb 1000000 7 ("Oil Filters") 20 =
      some (pyRound1 (20 /
        ((((negMovementsWindow forecastExampleDb 1000000 7 ("Oil Filters")).map
            (fun m => |m.quantity_change|)).sum / 7)))) := by
  have hne : negMovementsWindow forecastExampleDb 1000000 7 ("Oil Filters") ≠ [] := by
    unfold negMovementsWindow forecastExampleDb
    simp [List.filter]
  exact ⟨hne, (c5_stockout_forecast forecastExampleDb 1000000 7 ("Oil Filters") 20).1 hne⟩

/-! ## C9: unregistered sender -/

/-- C9: an inbound message whose normalized sender address matches no
Business row gets the fixed not-registered notice, no other branch runs,
and no state (database or outbox) is mutated: the webhook returns the
unchanged state paired with the notice. -/
theorem c9_unregistered_sender (cfg : Bool) (now : Int) (sheetRows : List SheetRow)
    (fetchPlace : String → Option PlaceData) (llm : LLMResult)
    (s : SysState) (sender body : String)
    (h : ∀ b ∈ s.db.businesses, b.owner_phone ≠ pyStrip (pyReplaceDel sender ("whatsapp:"))) :
    webhook cfg now sheetRows fetchPlace llm s sender body = (s, notRegisteredMsg) := by
  have hg : get_business s.db sender = none := by
    simp only [get_business]
    by_cases hp : pyStrip (pyReplaceDel sender ("whatsapp:")) = ""
    · simp [hp]
    · rw [if_neg hp]
      exact List.find?_eq_none.mpr (fun b hb => by
        simpa [beq_iff_eq] using h b hb)
  simp only [webhook, hg]

/-- Witness for C9: an empty business table and a concrete sender. -/
theorem c9_unregistered_sender_witness :
    (∀ b ∈ (⟨[], [], [], [], [], 0⟩ : DB).businesses,
      b.owner_phone ≠ pyStrip (pyReplaceDel ("whatsapp:+15550000000") ("whatsapp:"))) ∧
    webhook true 0 [] (fun _ => none) (.ok ("hi")) ⟨⟨[], [], [], [], [], 0⟩, []⟩
      ("whatsapp:+15550000000") ("hello") =
      (⟨⟨[], [], [], [], [], 0⟩, []⟩, notRegisteredMsg) :=
  ⟨by simp, c9_unregistered_sender _ _ _ _ _ _ _ _ (by simp)⟩

/-! ## C7: the send-order flow -/

/-- C7: on `send order`, with no pending purchase order the reply reports
none-pending and the state is untouched; with a pending order whose item
snapshot lacks a supplier address the reply reports the gap and the state
(including the action's `pending` status) is untouched; otherwise the
draft goes to the supplier's normalized WhatsApp-style address and
exactly that action is marked completed. -/
theorem c7_send_order (cfg : Bool) (business : Business) (s : SysState) :
    (pendingPurchaseOrders s.db business = [] →
      handle_send_order cfg business s = (s, "No pending purchase orders found.")) ∧
    (∀ action rest, pendingPurchaseOrders s.db business = action :: rest →
      actionSupplierWa action = "" →
      handle_send_order cfg business s =
        (s, "No WhatsApp number for " ++ optReprS (actionSupplierName action) ++
            ". Add it to your Google Sheet.")) ∧
    (∀ action rest, pendingPurchaseOrders s.db business = action :: rest →
      actionSupplierWa action ≠ "" → cfg = true →
      pyStartsWith (if pyStartsWith (actionSupplierWa action) ("whatsapp:") then
          actionSupplierWa action else "whatsapp:" ++ actionSupplierWa action)
        ("whatsapp:") = true ∧
      (handle_send_order cfg business s).1.outbox =
        s.outbox ++ [((if pyStartsWith (actionSupplierWa action) ("whatsapp:") then
            actionSupplierWa action else "whatsapp:" ++ actionSupplierWa action),
          optS action.draft_reply)] ∧
      (handle_send_order cfg business s).1.db.pending_actions =
        s.db.pending_actions.map (fun a =>
          if a.id == action.id then { a with status := "completed" } else a) ∧
      (handle_send_order cfg business s).2 =
        "✅ Order sent to " ++ optReprS (actionSupplierName action) ++ "!") := by
  refine ⟨?_, ?_, ?_⟩
  · intro h
    unfold handle_send_order
    rw [h]
  · intro action rest h hwa
    unfold handle_send_order
    rw [h]
    simp [hwa]
  · intro action rest h hwa hcfg
    subst hcfg
    refine ⟨?_, ?_, ?_, ?_⟩
    · by_cases hsw : pyStartsWith (actionSupplierWa action) ("whatsapp:") = true
      · simp [hsw]
      · simp only [Bool.not_eq_true] at hsw
        simp [hsw, pyStartsWith_prepend]
    all_goals
      unfold handle_send_order
      rw [h]
      by_cases hsw : pyStartsWith (actionSupplierWa action) ("whatsapp:") = true <;>
        simp [hwa, hsw, send_whatsapp, updateStatus, pyStartsWith_prepend]

/-- Witness database for C7: one pending purchase order with a supplier
WhatsApp number on file. -/
def c7Action : PendingAction :=
  { id := 3, business_id := 1, owner_phone := "+971", action_type := "purchase_order",
    item_name := some ("Oil Filters"),
    item_data := some (ItemData.stock ⟨9, 1, "Oil Filters", 4, "pcs", 5, 20, "AutoParts Co", "+15551234", 0⟩),
    review_id := none, draft_reply := some ("draft text"), status := "pending", created_at := 0 }

/-- Witness business for C7/C8. -/
def c7Biz : Business := ⟨1, "Garage One", "+971", none, none, none⟩

/-- Witness state for C7. -/
def c7State : SysState := ⟨⟨[c7Biz], [], [], [c7Action], [], 10⟩, []⟩

/-- Witness for C7: the happy path sends the draft to the normalized
supplier address (`whatsapp:` prepended to the supplier's number) and
completes the action. -/
theorem c7_send_order_witness :
    pendingPurchaseOrders c7State.db c7Biz = c7Action :: [] ∧
    actionSupplierWa c7Action ≠ "" ∧
    pyStartsWith (if pyStartsWith (actionSupplierWa c7Action) ("whatsapp:") then
        actionSupplierWa c7Action else "whatsapp:" ++ actionSupplierWa c7Action)
      ("whatsapp:") = true ∧
    (handle_send_order true c7Biz c7State).1.outbox =
      c7State.outbox ++ [((if pyStartsWith (actionSupplierWa c7Action) ("whatsapp:") then
          actionSupplierWa c7Action else "whatsapp:" ++ actionSupplierWa c7Action),
        optS c7Action.draft_reply)] ∧
    (handle_send_order true c7Biz c7State).1.db.pending_actions =
      c7State.db.pending_actions.map (fun a =>
        if a.id == c7Action.id then { a with status := "completed" } else a) ∧
    (handle_send_order true c7Biz c7State).2 =
      "✅ Order sent to " ++ optReprS (actionSupplierName c7Action) ++ "!" := by
  have h := (c7_send_order true c7Biz c7State).2.2 c7Action [] (by decide) (by decide) rfl
  exact ⟨by decide, by decide, h.1, h.2.1, h.2.2.1, h.2.2.2⟩

/-! ## C8: the order command -/

/-- C8: `order <item>` matches the item name case-insensitively as a
substring against the business's stock items; on a match a
`purchase_order` pending action with status `pending` is appended whose
draft contains the supplier name, and the draft is returned inside the
reply; on no match a not-found reply is returned and the state (hence
the pending-action table) is unchanged. -/
theorem c8_order_command (business : Business) (now : Int) (s : SysState) (item_name : String) :
    (orderMatches s.db business item_name = [] →
      handle_order_command business now s item_name =
        (s, "I couldn\x27t find \x27" ++ item_name ++ "\x27 in your stock list.")) ∧
    (∀ item rest, orderMatches s.db business item_name = item :: rest →
      ilikeMatch item_name item.name = true ∧
      (∃ pa, (handle_order_command business now s item_name).1.db.pending_actions =
          s.db.pending_actions ++ [pa] ∧
        pa.action_type = "purchase_order" ∧ pa.status = "pending" ∧
        pa.draft_reply = some (orderMsg business item)) ∧
      (∃ p q, orderMsg business item = p ++ (item.supplier_name ++ q)) ∧
      (∃ u v, (handle_order_command business now s item_name).2 =
        u ++ (orderMsg business item ++ v)) ∧
      (handle_order_command business now s item_name).1.outbox = s.outbox) := by
  constructor
  · intro h
    unfold handle_order_command
    rw [h]
  · intro item rest h
    have hmem : item ∈ orderMatches s.db business item_name := by rw [h]; exact List.mem_cons_self _ _
    have hpred := (List.mem_filter.mp hmem).2
    refine ⟨?_, ?_, ?_, ?_, ?_⟩
    · simp only [Bool.and_eq_true] at hpred
      exact hpred.2
    · refine ⟨{ id := s.db.nextId, business_id := business.id,
                owner_phone := business.owner_phone, action_type := "purchase_order",
                item_name := some item.name, item_data := some (ItemData.stock item),
                review_id := none, draft_reply := some (orderMsg business item),
                status := "pending", created_at := now }, ?_, rfl, rfl, rfl⟩
      unfold handle_order_command
      rw [h]
    · exact ⟨"Hi ", ",\n\nWe\x27d like to place an order:\n• " ++
        item.name ++ ": " ++ ratStr item.reorder_quantity ++ " " ++ item.unit ++
        "\n\nPlease confirm availability and delivery time.\n\nThanks,\n" ++ business.name,
        by simp [orderMsg, String.append_assoc]⟩
    · refine ⟨"📋 *Purchase Order Draft*\nItem: " ++ item.name ++ " — " ++
        ratStr item.reorder_quantity ++ " " ++ item.unit ++ "\nSupplier: " ++
        item.supplier_name ++ "\n\nMessage:\n\"",
        "\"\n\nReply *SEND ORDER* to send to supplier via WhatsApp", ?_⟩
      unfold handle_order_command
      rw [h]
      simp [String.append_assoc]
    · unfold handle_order_command
      rw [h]

/-- Witness stock item for C8 (the spec's "Oil Filters" example). -/
def c8Item : StockItem := ⟨9, 1, "Oil Filters", 4, "pcs", 5, 20, "AutoParts Co", "+15551234", 0⟩

/-- Witness state for C8. -/
def c8State : SysState := ⟨⟨[c7Biz], [c8Item], [], [], [], 10⟩, []⟩

/-- Witness for C8: `order filters` matches "Oil Filters" and persists a
pending purchase order; `order nonexistent` reports not-found against the
same state and leaves it unchanged. -/
theorem c8_order_command_witness :
    (orderMatches c8State.db c7Biz ("filters") = c8Item :: [] ∧
      ilikeMatch ("filters") c8Item.name = true ∧
      (∃ pa, (handle_order_command c7Biz 50 c8State ("filters")).1.db.pending_actions =
          c8State.db.pending_actions ++ [pa] ∧
        pa.action_type = "purchase_order" ∧ pa.status = "pending" ∧
        pa.draft_reply = some (orderMsg c7Biz c8Item)) ∧
      (∃ p q, orderMsg c7Biz c8Item = p ++ (c8Item.supplier_name ++ q))) ∧
    (orderMatches c8State.db c7Biz ("nonexistent") = [] ∧
      handle_order_command c7Biz 50 c8State ("nonexistent") =
        (c8State, "I couldn\x27t find \x27" ++ "nonexistent" ++ "\x27 in your stock list.")) := by
  constructor
  · have h := (c8_order_command c7Biz 50 c8State ("filters")).2 c8Item [] (by decide)
    exact ⟨by decide, h.1, h.2.1, h.2.2.1⟩
  · exact ⟨by decide, (c8_order_command c7Biz 50 c8State ("nonexistent")).1 (by decide)⟩

/-! ## C10: the truthiness test on the stockout estimate -/

/-- C10: the estimated-stockout line of the alert message is omitted both
when the forecast is undefined and when the computed `days_left` is `0.0`
(the builder tests truthiness, not presence); an item with quantity 0 and
recent negative movements gets forecast `0.0`, so its alert is still sent
but carries no estimate line — its body equals the body of an alert with
no forecast at all. -/
theorem c10_zero_forecast_line_omitted (item : AlertItem) (cfg : Bool) (biz : Business)
    (now : Int) (s : SysState) (db : DB) (bid : Nat) (nm : String) :
    days_str none = "" ∧
    days_str (some 0) = "" ∧
    (∀ d : ℚ, d ≠ 0 → days_str (some d) ≠ "") ∧
    (item.days_left = some 0 → alertBody item = alertBody { item with days_left := none }) ∧
    (negMovementsWindow db now bid nm ≠ [] → predict_stockout db now bid nm 0 = some 0) ∧
    ((recentStockAlerts s.db biz.id now).isEmpty = true → cfg = true →
      (processAlert cfg biz now s item).outbox = s.outbox ++
        [(if pyStartsWith biz.owner_phone ("whatsapp:") then biz.owner_phone
          else "whatsapp:" ++ biz.owner_phone, alertBody item)]) := by
  refine ⟨rfl, by norm_num [days_str], ?_, ?_, ?_, ?_⟩
  · intro d hd
    have : days_str (some d) =
        "\n⏰ Estimated stockout in *" ++ ratStr d ++ " days*" := by
      simp [days_str, hd]
    rw [this]
    intro hcon
    have hlen := congrArg String.length hcon
    simp only [String.length_append] at hlen
    have h27 : ("\n⏰ Estimated stockout in *" : String).length = 26 := by decide
    have h0 : ("" : String).length = 0 := by decide
    rw [h27, h0] at hlen
    omega
  · intro h0
    simp [alertBody, h0, days_str]
  · intro h
    rw [predict_stockout_some db now bid nm 0 h]
    norm_num [pyRound1, roundHalfEven]
  · intro hre hcfg
    subst hcfg
    simp [processAlert, hre, send_whatsapp]

/-- Witness state for C10: quantity 0, recent usage, no cool-down row. -/
def c10Db : DB := ⟨[], [], [⟨1, "Coolant", -70, 0, "sheet_update", 999999⟩], [], [], 0⟩

/-- Witness alert item for C10 (forecast already computed as 0). -/
def c10Item : AlertItem :=
  ⟨"Coolant", 0, "L", 5, 10, "AutoParts Co", "+15551234", some 0⟩

/-- Witness for C10: the zero-quantity item's forecast is `some 0`, and
the alert sent for it has the same body as one with no forecast. -/
theorem c10_zero_forecast_line_omitted_witness :
    negMovementsWindow c10Db 1000000 1 ("Coolant") ≠ [] ∧
    predict_stockout c10Db 1000000 1 ("Coolant") 0 = some 0 ∧
    (recentStockAlerts (⟨c10Db, []⟩ : SysState).db c7Biz.id 1000000).isEmpty = true ∧
    alertBody c10Item = alertBody { c10Item with days_left := none } ∧
    (processAlert true c7Biz 1000000 ⟨c10Db, []⟩ c10Item).outbox =
      ([] : List (String × String)) ++
      [(if pyStartsWith c7Biz.owner_phone ("whatsapp:") then c7Biz.owner_phone
        else "whatsapp:" ++ c7Biz.owner_phone, alertBody c10Item)] := by
  have hne : negMovementsWindow c10Db 1000000 1 ("Coolant") ≠ [] := by
    unfold negMovementsWindow c10Db
    simp [List.filter]
  have h := c10_zero_forecast_line_omitted c10Item true c7Biz 1000000 ⟨c10Db, []⟩
    c10Db 1 ("Coolant")
  exact ⟨hne, h.2.2.2.2.1 hne, by decide, h.2.2.2.1 rfl, h.2.2.2.2.2 (by decide) rfl⟩

/-! ## C6: the webhook always replies, failing soft on LLM errors -/

/-- C6: for a registered sender the webhook handler always produces a
reply envelope wrapping exactly one text (it is a total function into
state-plus-reply, never a transport error), and when the message falls
through to free-form chat and the LLM call fails, the reply is the
apologetic message with the error detail inlined. -/
theorem c6_webhook_fail_soft (cfg : Bool) (now : Int) (sheetRows : List SheetRow)
    (fetchPlace : String → Option PlaceData) (e : String)
    (s : SysState) (sender body : String) (business : Business)
    (hb : get_business s.db sender = some business)
    (h1 : isOrderCmd (pyLower (pyStrip body)) = false)
    (h2 : isSendOrderCmd (pyLower (pyStrip body)) = false)
    (h3 : isCheckStockCmd (pyLower (pyStrip body)) = false)
    (h4 : isSyncStockCmd (pyLower (pyStrip body)) = false)
    (h5 : isCheckReviewsCmd (pyLower (pyStrip body)) = false)
    (h6 : isApproveCmd (pyLower (pyStrip body)) = true →
      pendingReviewReplies s.db business = []) :
    (∀ llm, ∃ st r, webhook cfg now sheetRows fetchPlace llm s sender body = (st, r)) ∧
    webhook cfg now sheetRows fetchPlace (.err e) s sender body =
      (s, "Sorry, I couldn\x27t reach the AI: " ++ e) := by
  refine ⟨fun llm => ⟨_, _, rfl⟩, ?_⟩
  by_cases ha : isApproveCmd (pyLower (pyStrip body)) = true
  · simp [webhook, hb, h1, h2, h3, h4, h5, ha, h6 ha, chatReply]
  · simp only [Bool.not_eq_true] at ha
    simp [webhook, hb, h1, h2, h3, h4, h5, ha, chatReply]

/-- Witness state for C6: one registered business. -/
def c6State : SysState := ⟨⟨[c7Biz], [], [], [], [], 0⟩, []⟩

/-- Witness for C6: the free-form message `hello` from the registered
owner, with the LLM failing with error `boom`. -/
theorem c6_webhook_fail_soft_witness :
    get_business c6State.db ("whatsapp:+971") = some c7Biz ∧
    isOrderCmd (pyLower (pyStrip ("hello"))) = false ∧
    webhook true 0 [] (fun _ => none) (.err ("boom")) c6State ("whatsapp:+971") ("hello") =
      (c6State, "Sorry, I couldn\x27t reach the AI: " ++ "boom") := by
  refine ⟨by decide, by decide, ?_⟩
  exact (c6_webhook_fail_soft true 0 [] (fun _ => none) ("boom") c6State
    ("whatsapp:+971") ("hello") c7Biz (by decide) (by decide) (by decide) (by decide)
    (by decide) (by decide) (fun hcon => absurd hcon (by decide))).2

/-! ## Review dedup machinery -/

/-- Number of seen-review rows carrying a given review id. -/
def countSeen (db : DB) (rid : String) : Nat :=
  (db.seen_reviews.filter (fun r => r.review_id == rid)).length

/-- `send_whatsapp` never touches the database. -/
lemma send_whatsapp_db (cfg : Bool) (s : SysState) (a m : String) :
    (send_whatsapp cfg s a m).db = s.db := by
  unfold send_whatsapp
  split
  · rfl
  · rfl

/-- A vanished count means no row matches. -/
lemma countSeen_zero_any_false {db : DB} {rid : String} (h : countSeen db rid = 0) :
    db.seen_reviews.any (fun r => r.review_id == rid) = false := by
  unfold countSeen at h
  rw [List.length_eq_zero] at h
  exact List.any_eq_false.mpr (fun r hr => by
    have := List.filter_eq_nil_iff.mp h r hr
    simpa using this)

/-- The monitor's per-review step is the identity when the review id is
already seen (src/review_monitor.py lines 158-160). -/
lemma processReviewMon_skip (cfg : Bool) (biz : Business) (rid : String) (b : Bool)
    (s : SysState) (rev : RawReview)
    (h : s.db.seen_reviews.any (fun r => r.review_id == monReviewId rid rev) = true) :
    processReviewMon cfg biz rid b s rev = s := by
  unfold processReviewMon
  simp [h]

/-- The monitor's per-review step appends exactly one seen row when the
review id is fresh, in backfill and live mode alike. -/
lemma processReviewMon_insert (cfg : Bool) (biz : Business) (rid : String) (b : Bool)
    (s : SysState) (rev : RawReview)
    (h : s.db.seen_reviews.any (fun r => r.review_id == monReviewId rid rev) = false) :
    (processReviewMon cfg biz rid b s rev).db.seen_reviews =
      s.db.seen_reviews ++ [mkSeenMon biz rid rev] := by
  unfold processReviewMon
  simp only [h, Bool.false_eq_true, if_false]
  split
  · rfl
  · split
    · split
      · rfl
      · rfl
    · split
      · rfl
      · rfl

/-- The app engine's per-review step is the identity when the review id
is already seen (src/app.py lines 392-393). -/
lemma processReviewApp_skip (cfg : Bool) (now : Int)
    (draft : String → String → ℚ → String → String)
    (business : Business) (pid : String) (s : SysState) (rev : RawReviewLegacy)
    (h : s.db.seen_reviews.any (fun r => r.review_id == appReviewId pid rev) = true) :
    processReviewApp cfg now draft business pid s rev = s := by
  unfold processReviewApp
  simp [h]

/-- The app engine's per-review step appends exactly one seen row when
the review id is fresh. -/
lemma processReviewApp_insert (cfg : Bool) (now : Int)
    (draft : String → String → ℚ → String → String)
    (business : Business) (pid : String) (s : SysState) (rev : RawReviewLegacy)
    (h : s.db.seen_reviews.any (fun r => r.review_id == appReviewId pid rev) = false) :
    ∃ row, (processReviewApp cfg now draft business pid s rev).db.seen_reviews =
        s.db.seen_reviews ++ [row] ∧ row.review_id = appReviewId pid rev := by
  refine ⟨{ review_id := appReviewId pid rev
            business_id := business.id
            reviewer_name := rev.author_name.getD ("Someone")
            rating := rev.rating.getD 0
            review_text := rev.text.getD ""
            reply_draft := some (draft business.name (rev.author_name.getD ("Someone"))
              (rev.rating.getD 0) (rev.text.getD ""))
            replied := false }, ?_, rfl⟩
  unfold processReviewApp
  simp only [h, Bool.false_eq_true, if_false]
  rw [send_whatsapp_db]

/-- Appending one matching row bumps the count by one. -/
lemma countSeen_append_match {db : DB} {rows : List SeenReview} {row : SeenReview} {rid : String}
    (hdb : db.seen_reviews = rows ++ [row]) (hid : row.review_id = rid) :
    countSeen db rid = (rows.filter (fun r => r.review_id == rid)).length + 1 := by
  unfold countSeen
  rw [hdb, List.filter_append]
  simp [hid, List.length_append]

/-! ## C3: review dedup -/

/-- C3: ingesting the same raw review twice — in one run or across runs,
in either review-ingestion engine — leaves exactly one seen-review row
for its derived review id, and a per-review ingestion step on an
already-present review id changes nothing at all (so a row whose
review id exists is never inserted again). -/
theorem c3_review_dedup (cfg b : Bool) (now : Int)
    (draft : String → String → ℚ → String → String)
    (biz business : Business) (rid pid : String)
    (rev : RawReview) (lrev : RawReviewLegacy) (s t : SysState)
    (h1 : countSeen s.db (monReviewId rid rev) = 0)
    (h2 : countSeen t.db (appReviewId pid lrev) = 0) :
    countSeen ([rev, rev].foldl (processReviewMon cfg biz rid b) s).db (monReviewId rid rev) = 1 ∧
    countSeen ([lrev, lrev].foldl (processReviewApp cfg now draft business pid) t).db
      (appReviewId pid lrev) = 1 ∧
    (∀ u : SysState,
      u.db.seen_reviews.any (fun r => r.review_id == monReviewId rid rev) = true →
      processReviewMon cfg biz rid b u rev = u) ∧
    (∀ u : SysState,
      u.db.seen_reviews.any (fun r => r.review_id == appReviewId pid lrev) = true →
      processReviewApp cfg now draft business pid u lrev = u) := by
  refine ⟨?_, ?_, fun u hu => processReviewMon_skip cfg biz rid b u rev hu,
          fun u hu => processReviewApp_skip cfg now draft business pid u lrev hu⟩
  · have hany := countSeen_zero_any_false h1
    set s1 := processReviewMon cfg biz rid b s rev with hs1
    have hseen1 : s1.db.seen_reviews = s.db.seen_reviews ++ [mkSeenMon biz rid rev] :=
      processReviewMon_insert cfg biz rid b s rev hany
    have hany1 : s1.db.seen_reviews.any (fun r => r.review_id == monReviewId rid rev) = true := by
      rw [hseen1, List.any_append]
      simp [mkSeenMon]
    have hskip := processReviewMon_skip cfg biz rid b s1 rev hany1
    show countSeen (processReviewMon cfg biz rid b s1 rev).db (monReviewId rid rev) = 1
    rw [hskip]
    have := countSeen_append_match hseen1
      (show (mkSeenMon biz rid rev).review_id = monReviewId rid rev from rfl)
    rw [this]
    have hz : (List.filter (fun r => r.review_id == monReviewId rid rev) s.db.seen_reviews).length = 0 := h1
    omega
  · have hany := countSeen_zero_any_false h2
    obtain ⟨row, hseen1, hid⟩ := processReviewApp_insert cfg now draft business pid t lrev hany
    set t1 := processReviewApp cfg now draft business pid t lrev with ht1
    have hany1 : t1.db.seen_reviews.any (fun r => r.review_id == appReviewId pid lrev) = true := by
      rw [hseen1, List.any_append]
      simp [hid]
    have hskip := processReviewApp_skip cfg now draft business pid t1 lrev hany1
    show countSeen (processReviewApp cfg now draft business pid t1 lrev).db (appReviewId pid lrev) = 1
    rw [hskip]
    have := countSeen_append_match hseen1 hid
    rw [this]
    have hz : (List.filter (fun r => r.review_id == appReviewId pid lrev) t.db.seen_reviews).length = 0 := h2
    omega

/-- Witness raw reviews and state for C3. -/
def c3Rev : RawReview := ⟨none, some ("Alice"), some 4, ReviewText.str ("great")⟩

/-- Witness legacy review for C3. -/
def c3LRev : RawReviewLegacy := ⟨some ("Bob"), some 2, some ("meh"), some 1700⟩

/-- Witness for C3: both engines, starting from empty seen-review
tables, ingest a duplicated review and end with exactly one row. -/
theorem c3_review_dedup_witness :
    countSeen (⟨[], [], [], [], [], 0⟩ : DB) (monReviewId ("P1") c3Rev) = 0 ∧
    countSeen ([c3Rev, c3Rev].foldl
      (processReviewMon true c7Biz ("P1") false) ⟨⟨[], [], [], [], [], 0⟩, []⟩).db
      (monReviewId ("P1") c3Rev) = 1 ∧
    countSeen ([c3LRev, c3LRev].foldl
      (processReviewApp true 0 (fun _ _ _ _ => "d") c7Biz ("P1")) ⟨⟨[], [], [], [], [], 0⟩, []⟩).db
      (appReviewId ("P1") c3LRev) = 1 := by
  have h := c3_review_dedup true false 0 (fun _ _ _ _ => "d") c7Biz c7Biz ("P1") ("P1")
    c3Rev c3LRev ⟨⟨[], [], [], [], [], 0⟩, []⟩ ⟨⟨[], [], [], [], [], 0⟩, []⟩ rfl rfl
  exact ⟨rfl, h.1, h.2.1⟩


/-! ## Cool-down machinery for stock alerts -/

/-- Number of stock-alert pending actions for one (business, item) key. -/
def countStockAlerts (db : DB) (bid : Nat) (nm : String) : Nat :=
  (db.pending_actions.filter (fun a =>
    a.business_id == bid && a.action_type == "stock_alert" && a.item_name == some nm)).length

/-- Some stock-alert action for the key was created at or after `cutoff`. -/
def hasRecentAlert (db : DB) (bid : Nat) (nm : String) (cutoff : Int) : Bool :=
  db.pending_actions.any (fun a =>
    a.business_id == bid && a.action_type == "stock_alert" &&
    decide (cutoff ≤ a.created_at) && a.item_name == some nm)

/-- Unfolding one step of the alert loop. -/
lemma send_stock_alerts_cons (cfg : Bool) (biz : Business) (t : Int) (s : SysState)
    (item : AlertItem) (rest : List AlertItem) :
    send_stock_alerts cfg biz t s (item :: rest) =
      send_stock_alerts cfg biz t (processAlert cfg biz t s item) rest := rfl

/-- A stock alert inside the 4-hour cool-down window suppresses the whole
per-item step: state, outbox and tables are untouched. -/
lemma processAlert_suppressed (cfg : Bool) (biz : Business) (now : Int)
    (s : SysState) (item : AlertItem)
    (h : hasRecentAlert s.db biz.id item.name (now - 14400) = true) :
    processAlert cfg biz now s item = s := by
  obtain ⟨a, ha, hp⟩ := List.any_eq_true.mp h
  simp only [Bool.and_eq_true] at hp
  obtain ⟨⟨⟨hb, ht⟩, hc⟩, hn⟩ := hp
  have hc' := of_decide_eq_true hc
  have hmem : a ∈ recentStockAlerts s.db biz.id now := by
    unfold recentStockAlerts
    rw [List.mem_filter]
    refine ⟨ha, ?_⟩
    simp [hb, ht]
    omega
  have hne : (recentStockAlerts s.db biz.id now).isEmpty = false := by
    cases hrec : recentStockAlerts s.db biz.id now
    · rw [hrec] at hmem; cases hmem
    · rfl
  have hanyr : (recentStockAlerts s.db biz.id now).any
      (fun r => r.item_name == some item.name) = true :=
    List.any_eq_true.mpr ⟨a, hmem, hn⟩
  unfold processAlert
  simp [hne, hanyr]

/-- Each per-item step either leaves the pending-action table alone or
appends exactly one fresh stock-alert row stamped `now`. -/
lemma processAlert_pending_char (cfg : Bool) (biz : Business) (now : Int)
    (s : SysState) (item : AlertItem) :
    (processAlert cfg biz now s item).db.pending_actions = s.db.pending_actions ∨
    (processAlert cfg biz now s item).db.pending_actions =
      s.db.pending_actions ++
        [⟨s.db.nextId, biz.id, biz.owner_phone, "stock_alert", some item.name,
          some (ItemData.alert item), none, none, "pending", now⟩] := by
  by_cases hcond : (!(recentStockAlerts s.db biz.id now).isEmpty &&
      (recentStockAlerts s.db biz.id now).any (fun r => r.item_name == some item.name)) = true
  · left
    simp only [processAlert]
    rw [if_pos hcond]
  · right
    simp only [processAlert]
    rw [if_neg hcond]
    simp [send_whatsapp_db]

/-- When the fresh row carries a different item name, the filtered list
for the key does not change. -/
lemma countStockAlerts_append_other {db : DB} {rows : List PendingAction}
    {a : PendingAction} {bid : Nat} {nm : String}
    (hdb : db.pending_actions = rows ++ [a]) (hname : a.item_name ≠ some nm) :
    (db.pending_actions.filter (fun x =>
      x.business_id == bid && x.action_type == "stock_alert" && x.item_name == some nm)) =
    (rows.filter (fun x =>
      x.business_id == bid && x.action_type == "stock_alert" && x.item_name == some nm)) := by
  rw [hdb, List.filter_append]
  have : (a.item_name == some nm) = false := by simpa using hname
  simp [List.filter, this]

/-- `send_stock_alerts` only appends pending actions. -/
lemma send_stock_alerts_pending_mono (cfg : Bool) (biz : Business) (t : Int) :
    ∀ (alerts : List AlertItem) (s : SysState), ∃ suffix,
      (send_stock_alerts cfg biz t s alerts).db.pending_actions =
        s.db.pending_actions ++ suffix := by
  intro alerts
  induction alerts with
  | nil => exact fun s => ⟨[], by simp [send_stock_alerts]⟩
  | cons item rest ih =>
    intro s
    obtain ⟨suf, hsuf⟩ := ih (processAlert cfg biz t s item)
    rw [send_stock_alerts_cons]
    rcases processAlert_pending_char cfg biz t s item with hc | hc
    · exact ⟨suf, by rw [hsuf, hc]⟩
    · refine ⟨(⟨s.db.nextId, biz.id, biz.owner_phone, "stock_alert", some item.name,
          some (ItemData.alert item), none, none, "pending", t⟩ : PendingAction) :: suf, ?_⟩
      rw [hsuf, hc, List.append_assoc]
      rfl

/-- While a recent alert for the key exists, a whole alert run inserts no
further stock-alert action for that key and keeps the recency witness. -/
lemma send_stock_alerts_no_new (cfg : Bool) (biz : Business) (t : Int) (nm : String) :
    ∀ (alerts : List AlertItem) (s : SysState),
      hasRecentAlert s.db biz.id nm (t - 14400) = true →
      countStockAlerts (send_stock_alerts cfg biz t s alerts).db biz.id nm =
        countStockAlerts s.db biz.id nm ∧
      hasRecentAlert (send_stock_alerts cfg biz t s alerts).db biz.id nm (t - 14400) = true := by
  intro alerts
  induction alerts with
  | nil => exact fun s h => ⟨rfl, h⟩
  | cons item rest ih =>
    intro s h
    rw [send_stock_alerts_cons]
    by_cases hnm : item.name = nm
    · rw [processAlert_suppressed cfg biz t s item (by rwa [hnm])]
      exact ih s h
    · rcases processAlert_pending_char cfg biz t s item with hc | hc
      · have hdb : countStockAlerts (processAlert cfg biz t s item).db biz.id nm =
            countStockAlerts s.db biz.id nm := by
          unfold countStockAlerts
          rw [hc]
        have hrec : hasRecentAlert (processAlert cfg biz t s item).db biz.id nm (t - 14400) = true := by
          unfold hasRecentAlert at h ⊢
          rw [hc]
          exact h
        obtain ⟨h1, h2⟩ := ih (processAlert cfg biz t s item) hrec
        exact ⟨by rw [h1, hdb], h2⟩
      · have hother : (⟨s.db.nextId, biz.id, biz.owner_phone, "stock_alert", some item.name,
            some (ItemData.alert item), none, none, "pending", t⟩ : PendingAction).item_name ≠
            some nm := by simpa using hnm
        have hdb : countStockAlerts (processAlert cfg biz t s item).db biz.id nm =
            countStockAlerts s.db biz.id nm := by
          unfold countStockAlerts
          rw [countStockAlerts_append_other hc hother]
        have hrec : hasRecentAlert (processAlert cfg biz t s item).db biz.id nm (t - 14400) = true := by
          unfold hasRecentAlert at h ⊢
          rw [hc, List.any_append, h]
          rfl
        obtain ⟨h1, h2⟩ := ih (processAlert cfg biz t s item) hrec
        exact ⟨by rw [h1, hdb], h2⟩

/-- One alert run inserts at most one stock-alert action for a key, and
when it does, the fresh action is stamped with the run time. -/
lemma send_stock_alerts_at_most_one (cfg : Bool) (biz : Business) (t : Int) (nm : String) :
    ∀ (alerts : List AlertItem) (s : SysState),
      countStockAlerts (send_stock_alerts cfg biz t s alerts).db biz.id nm =
        countStockAlerts s.db biz.id nm ∨
      (countStockAlerts (send_stock_alerts cfg biz t s alerts).db biz.id nm =
        countStockAlerts s.db biz.id nm + 1 ∧
       ∃ a ∈ (send_stock_alerts cfg biz t s alerts).db.pending_actions,
         (a.business_id == biz.id && a.action_type == "stock_alert" &&
          a.item_name == some nm) = true ∧ a.created_at = t) := by
  intro alerts
  induction alerts with
  | nil => exact fun s => Or.inl rfl
  | cons item rest ih =>
    intro s
    rw [send_stock_alerts_cons]
    rcases processAlert_pending_char cfg biz t s item with hc | hc
    · have hdb : countStockAlerts (processAlert cfg biz t s item).db biz.id nm =
          countStockAlerts s.db biz.id nm := by
        unfold countStockAlerts
        rw [hc]
      rcases ih (processAlert cfg biz t s item) with h1 | ⟨h1, a, hmem, hkey, hts⟩
      · exact Or.inl (by rw [h1, hdb])
      · exact Or.inr ⟨by rw [h1, hdb], a, hmem, hkey, hts⟩
    · by_cases hnm : item.name = nm
      · subst hnm
        set na : PendingAction := ⟨s.db.nextId, biz.id, biz.owner_phone, "stock_alert",
          some item.name, some (ItemData.alert item), none, none, "pending", t⟩ with hna
        have hkeyna : (na.business_id == biz.id && na.action_type == "stock_alert" &&
            na.item_name == some item.name) = true := by
          simp [hna]
        have hdb : countStockAlerts (processAlert cfg biz t s item).db biz.id item.name =
            countStockAlerts s.db biz.id item.name + 1 := by
          unfold countStockAlerts
          rw [hc, List.filter_append]
          simp only [List.length_append]
          have : (List.filter (fun x =>
              x.business_id == biz.id && x.action_type == "stock_alert" &&
              x.item_name == some item.name) [na]).length = 1 := by
            simp [List.filter, hkeyna]
          rw [this]
        have hrec2 : hasRecentAlert (processAlert cfg biz t s item).db biz.id item.name
            (t - 14400) = true := by
          unfold hasRecentAlert
          rw [hc, List.any_append]
          rw [Bool.or_eq_true]
          right
          simp only [List.any_cons, List.any_nil, Bool.or_false]
          simp [hna]
        have h2 := send_stock_alerts_no_new cfg biz t item.name rest
          (processAlert cfg biz t s item) hrec2
        refine Or.inr ⟨by rw [h2.1, hdb], ?_⟩
        obtain ⟨suf, hsuf⟩ := send_stock_alerts_pending_mono cfg biz t rest
          (processAlert cfg biz t s item)
        refine ⟨na, ?_, hkeyna, rfl⟩
        rw [hsuf, hc]
        simp
      · have hother : (⟨s.db.nextId, biz.id, biz.owner_phone, "stock_alert", some item.name,
            some (ItemData.alert item), none, none, "pending", t⟩ : PendingAction).item_name ≠
            some nm := by simpa using hnm
        have hdb : countStockAlerts (processAlert cfg biz t s item).db biz.id nm =
            countStockAlerts s.db biz.id nm := by
          unfold countStockAlerts
          rw [countStockAlerts_append_other hc hother]
        rcases ih (processAlert cfg biz t s item) with h1 | ⟨h1, a, hmem, hkey, hts⟩
        · exact Or.inl (by rw [h1, hdb])
        · exact Or.inr ⟨by rw [h1, hdb], a, hmem, hkey, hts⟩

/-! ## C2: the 4-hour alert cool-down -/

/-- C2: an alert for an item is suppressed whenever a stock_alert pending
action for the same item was created within the trailing 4 hours, and
consequently two alert runs within 4 hours of each other add at most one
stock_alert pending action for any given item. -/
theorem c2_cooldown (cfg1 cfg2 : Bool) (biz : Business) (t1 t2 : Int) (nm : String)
    (alerts1 alerts2 : List AlertItem) (s : SysState)
    (hwin : t2 ≤ t1 + 14400) :
    (∀ (item : AlertItem) (u : SysState),
      hasRecentAlert u.db biz.id item.name (t1 - 14400) = true →
      processAlert cfg1 biz t1 u item = u) ∧
    countStockAlerts (send_stock_alerts cfg2 biz t2
        (send_stock_alerts cfg1 biz t1 s alerts1) alerts2).db biz.id nm ≤
      countStockAlerts s.db biz.id nm + 1 := by
  refine ⟨fun item u hu => processAlert_suppressed cfg1 biz t1 u item hu, ?_⟩
  set s1 := send_stock_alerts cfg1 biz t1 s alerts1 with hs1
  rcases send_stock_alerts_at_most_one cfg1 biz t1 nm alerts1 s with h1 | ⟨h1, a, hmem, hkey, hts⟩
  · rcases send_stock_alerts_at_most_one cfg2 biz t2 nm alerts2 s1 with h2 | ⟨h2, _⟩
    · rw [h2, h1]
      omega
    · rw [h2, h1]
  · have hrec : hasRecentAlert s1.db biz.id nm (t2 - 14400) = true := by
      apply List.any_eq_true.mpr
      refine ⟨a, hmem, ?_⟩
      simp only [Bool.and_eq_true] at hkey ⊢
      refine ⟨⟨⟨hkey.1.1, hkey.1.2⟩, ?_⟩, hkey.2⟩
      rw [hts]
      simp only [decide_eq_true_eq]
      omega
    have h2 := send_stock_alerts_no_new cfg2 biz t2 nm alerts2 s1 hrec
    rw [h2.1, h1]

/-- Witness for C2: two runs 1000 seconds apart over the same
under-threshold item insert one stock-alert action, not two. -/
theorem c2_cooldown_witness :
    (2000 : Int) ≤ 1000 + 14400 ∧
    countStockAlerts (send_stock_alerts true c7Biz 2000
        (send_stock_alerts true c7Biz 1000 ⟨⟨[c7Biz], [], [], [], [], 0⟩, []⟩ [c10Item])
        [c10Item]).db c7Biz.id c10Item.name ≤
      countStockAlerts (⟨⟨[c7Biz], [], [], [], [], 0⟩, []⟩ : SysState).db
        c7Biz.id c10Item.name + 1 :=
  ⟨by norm_num,
   (c2_cooldown true true c7Biz 1000 2000 c10Item.name [c10Item] [c10Item]
     ⟨⟨[c7Biz], [], [], [], [], 0⟩, []⟩ (by norm_num)).2⟩

/-! ## Backfill machinery for the monitor engine -/

/-- A WhatsApp-prefixed address is never empty. -/
lemma prepend_whatsapp_ne_empty (x : String) : ("whatsapp:" ++ x) ≠ "" := by
  intro hcon
  have hlen := congrArg String.length hcon
  rw [String.length_append] at hlen
  have h9 : ("whatsapp:" : String).length = 9 := by decide
  have h0 : ("" : String).length = 0 := by decide
  omega

/-- A fresh review in a backfill run is persisted and nothing else happens. -/
lemma processReviewMon_backfill (cfg : Bool) (biz : Business) (rid : String)
    (s : SysState) (rev : RawReview)
    (h : s.db.seen_reviews.any (fun r => r.review_id == monReviewId rid rev) = false) :
    processReviewMon cfg biz rid true s rev =
      { s with db := { s.db with
          seen_reviews := s.db.seen_reviews ++ [mkSeenMon biz rid rev] } } := by
  unfold processReviewMon
  simp [h]

/-- A fresh review in a live run is persisted and pages the owner once. -/
lemma processReviewMon_live (biz : Business) (rid : String)
    (s : SysState) (rev : RawReview)
    (h : s.db.seen_reviews.any (fun r => r.review_id == monReviewId rid rev) = false)
    (hphone : biz.owner_phone ≠ "") :
    (processReviewMon true biz rid false s rev).outbox.length = s.outbox.length + 1 ∧
    (processReviewMon true biz rid false s rev).db.seen_reviews =
      s.db.seen_reviews ++ [mkSeenMon biz rid rev] := by
  unfold processReviewMon
  by_cases hsw : pyStartsWith biz.owner_phone ("whatsapp:") = true
  · simp [h, hsw, hphone, List.length_append]
  · simp only [Bool.not_eq_true] at hsw
    simp [h, hsw, hphone, prepend_whatsapp_ne_empty, List.length_append]

/-- Folding a backfill run over fresh reviews with pairwise-distinct
derived ids sends nothing and appends exactly the seen rows. -/
lemma checkMon_backfill_fold (cfg : Bool) (biz : Business) (rid : String) :
    ∀ (reviews : List RawReview) (s : SysState),
      (∀ rev ∈ reviews, ∀ r ∈ s.db.seen_reviews, r.review_id ≠ monReviewId rid rev) →
      ((reviews.map (monReviewId rid)).Nodup) →
      (reviews.foldl (processReviewMon cfg biz rid true) s).outbox = s.outbox ∧
      (reviews.foldl (processReviewMon cfg biz rid true) s).db.seen_reviews =
        s.db.seen_reviews ++ reviews.map (mkSeenMon biz rid) := by
  intro reviews
  induction reviews with
  | nil => exact fun s _ _ => ⟨rfl, by simp⟩
  | cons rev rest ih =>
    intro s hfresh hnodup
    have hany : s.db.seen_reviews.any (fun r => r.review_id == monReviewId rid rev) = false :=
      List.any_eq_false.mpr (fun r hr => by
        simpa using hfresh rev (List.mem_cons_self _ _) r hr)
    have hstep := processReviewMon_backfill cfg biz rid s rev hany
    have hnodup' : ((rest.map (monReviewId rid)).Nodup) := by
      rw [List.map_cons, List.nodup_cons] at hnodup
      exact hnodup.2
    have hhead : monReviewId rid rev ∉ rest.map (monReviewId rid) := by
      rw [List.map_cons, List.nodup_cons] at hnodup
      exact hnodup.1
    have hfresh' : ∀ rev2 ∈ rest,
        ∀ r ∈ (processReviewMon cfg biz rid true s rev).db.seen_reviews,
        r.review_id ≠ monReviewId rid rev2 := by
      intro rev2 h2 r hr
      rw [hstep] at hr
      simp only [List.mem_append, List.mem_singleton] at hr
      rcases hr with hr | hr
      · exact hfresh rev2 (List.mem_cons_of_mem _ h2) r hr
      · subst hr
        show monReviewId rid rev ≠ monReviewId rid rev2
        intro hcon
        exact hhead (hcon ▸ List.mem_map_of_mem (monReviewId rid) h2)
    obtain ⟨ho, hs⟩ := ih (processReviewMon cfg biz rid true s rev) hfresh' hnodup'
    constructor
    · show (List.foldl (processReviewMon cfg biz rid true)
        (processReviewMon cfg biz rid true s rev) rest).outbox = s.outbox
      rw [ho, hstep]
    · show (List.foldl (processReviewMon cfg biz rid true)
        (processReviewMon cfg biz rid true s rev) rest).db.seen_reviews = _
      rw [hs, hstep]
      simp [List.append_assoc]

/-- A run (backfill or live) over reviews whose ids are all present
already is a complete no-op. -/
lemma checkMon_skip_fold (cfg : Bool) (biz : Business) (rid : String) (b : Bool) :
    ∀ (reviews : List RawReview) (s : SysState),
      (∀ rev ∈ reviews, ∃ r ∈ s.db.seen_reviews, r.review_id = monReviewId rid rev) →
      reviews.foldl (processReviewMon cfg biz rid b) s = s := by
  intro reviews
  induction reviews with
  | nil => exact fun s _ => rfl
  | cons rev rest ih =>
    intro s hseen
    obtain ⟨r, hr, hid⟩ := hseen rev (List.mem_cons_self _ _)
    have hany : s.db.seen_reviews.any (fun x => x.review_id == monReviewId rid rev) = true :=
      List.any_eq_true.mpr ⟨r, hr, by simp [hid]⟩
    have hstep := processReviewMon_skip cfg biz rid b s rev hany
    show List.foldl (processReviewMon cfg biz rid b)
      (processReviewMon cfg biz rid b s rev) rest = s
    rw [hstep]
    exact ih s (fun rev2 h2 => hseen rev2 (List.mem_cons_of_mem _ h2))

/-! ## C1: backfill suppression -/

/-- C1 (amended to the monitor engine `run_review_check`): per business,
a first ingestion run — no seen-review rows for the business yet —
persists all N fetched reviews (distinct derived ids, none already seen)
and sends no owner alert; the next run, fetching those N plus one new
review, persists exactly the new one and sends exactly one alert.  The
app.py engine `check_reviews_for_all_businesses` does not satisfy the
backfill half — see the counterexample. -/
theorem c1_backfill_suppression (biz : Business) (rid : String)
    (reviews : List RawReview) (newRev : RawReview) (s : SysState)
    (hnb : ∀ r ∈ s.db.seen_reviews, r.business_id ≠ biz.id)
    (hfresh : ∀ rev ∈ reviews ++ [newRev],
      ∀ r ∈ s.db.seen_reviews, r.review_id ≠ monReviewId rid rev)
    (hnodup : ((reviews ++ [newRev]).map (monReviewId rid)).Nodup)
    (hne : reviews ≠ [])
    (hphone : biz.owner_phone ≠ "") :
    (checkBusinessMon true biz rid reviews s).outbox = s.outbox ∧
    (checkBusinessMon true biz rid reviews s).db.seen_reviews.length =
      s.db.seen_reviews.length + reviews.length ∧
    (checkBusinessMon true biz rid (reviews ++ [newRev])
        (checkBusinessMon true biz rid reviews s)).outbox.length =
      (checkBusinessMon true biz rid reviews s).outbox.length + 1 ∧
    (checkBusinessMon true biz rid (reviews ++ [newRev])
        (checkBusinessMon true biz rid reviews s)).db.seen_reviews.length =
      (checkBusinessMon true biz rid reviews s).db.seen_reviews.length + 1 := by
  have hbf : (s.db.seen_reviews.any (fun r => r.business_id == biz.id)) = false :=
    List.any_eq_false.mpr (fun r hr => by simpa using hnb r hr)
  have hnodup1 : (reviews.map (monReviewId rid)).Nodup := by
    rw [List.map_append, List.nodup_append] at hnodup
    exact hnodup.1
  have hdisj : ∀ rev ∈ reviews, monReviewId rid rev ≠ monReviewId rid newRev := by
    rw [List.map_append, List.nodup_append] at hnodup
    intro rev hrev
    have hnin := hnodup.2.2 (List.mem_map_of_mem (monReviewId rid) hrev)
    simpa using hnin
  have hfresh1 : ∀ rev ∈ reviews, ∀ r ∈ s.db.seen_reviews,
      r.review_id ≠ monReviewId rid rev :=
    fun rev hrev => hfresh rev (List.mem_append_left _ hrev)
  have hrun1 : checkBusinessMon true biz rid reviews s =
      reviews.foldl (processReviewMon true biz rid true) s := by
    unfold checkBusinessMon
    rw [hbf]
    rfl
  obtain ⟨ho1, hs1⟩ := checkMon_backfill_fold true biz rid reviews s hfresh1 hnodup1
  set s1 := checkBusinessMon true biz rid reviews s with hs1def
  have ho1' : s1.outbox = s.outbox := by rw [hrun1]; exact ho1
  have hseen1 : s1.db.seen_reviews = s.db.seen_reviews ++ reviews.map (mkSeenMon biz rid) := by
    rw [hrun1]; exact hs1
  refine ⟨ho1', ?_, ?_⟩
  · rw [hseen1, List.length_append, List.length_map]
  · -- second run is live
    obtain ⟨rv, rest, rfl⟩ := List.exists_cons_of_ne_nil hne
    have hbf2 : (s1.db.seen_reviews.any (fun r => r.business_id == biz.id)) = true := by
      apply List.any_eq_true.mpr
      refine ⟨mkSeenMon biz rid rv, ?_, by simp [mkSeenMon]⟩
      rw [hseen1]
      exact List.mem_append_right _ (List.mem_map_of_mem _ (List.mem_cons_self _ _))
    have hrun2 : checkBusinessMon true biz rid ((rv :: rest) ++ [newRev]) s1 =
        ((rv :: rest) ++ [newRev]).foldl (processReviewMon true biz rid false) s1 := by
      unfold checkBusinessMon
      rw [hbf2]
      rfl
    have hskip : (rv :: rest).foldl (processReviewMon true biz rid false) s1 = s1 := by
      apply checkMon_skip_fold
      intro rev hrev
      refine ⟨mkSeenMon biz rid rev, ?_, rfl⟩
      rw [hseen1]
      exact List.mem_append_right _ (List.mem_map_of_mem _ hrev)
    have hfreshNew : s1.db.seen_reviews.any
        (fun r => r.review_id == monReviewId rid newRev) = false := by
      apply List.any_eq_false.mpr
      intro r hr
      rw [hseen1] at hr
      simp only [List.mem_append] at hr
      rcases hr with hr | hr
      · simpa using hfresh newRev (List.mem_append_right _ (List.mem_singleton.mpr rfl)) r hr
      · obtain ⟨rev, hrev, rfl⟩ := List.mem_map.mp hr
        simpa [mkSeenMon] using hdisj rev hrev
    obtain ⟨holen, hseen2⟩ := processReviewMon_live biz rid s1 newRev hfreshNew hphone
    rw [hrun2, List.foldl_append, hskip]
    have : List.foldl (processReviewMon true biz rid false) s1 [newRev] =
        processReviewMon true biz rid false s1 newRev := rfl
    rw [this]
    exact ⟨holen, by rw [hseen2, List.length_append]; rfl⟩

/-- Counterexample input for C1: the app.py engine with one business,
one fetched review and an empty seen-review table. -/
def c1Biz : Business := ⟨1, "Shop", "+971", none, some ("P1"), none⟩

/-- Counterexample state for C1. -/
def c1State : SysState := ⟨⟨[c1Biz], [], [], [], [], 0⟩, []⟩

/-- Counterexample reviews gateway for C1. -/
def c1Fetch : String → Option PlaceData :=
  fun pid => if pid = "P1" then
    some ⟨some 5, some 1, [⟨some ("Alice"), some 5, some ("great"), some 100⟩]⟩
  else none

/-- C1 as stated is false for the repository's app.py ingestion engine:
on the very first run for a business with no SeenReview rows, it persists
the review and also sends one owner alert instead of zero. -/
theorem c1_backfill_suppression_counterexample :
    c1State.db.seen_reviews = [] ∧
    (check_reviews_for_all_businesses true 0 c1Fetch (fun _ _ _ _ => "d") c1State).db.seen_reviews.length = 1 ∧
    (check_reviews_for_all_businesses true 0 c1Fetch (fun _ _ _ _ => "d") c1State).outbox.length = 1 := by
  refine ⟨rfl, ?_, ?_⟩ <;> decide

/-- Witness data for C1: two distinct reviews. -/
def c1Rev1 : RawReview := ⟨none, some ("Alice"), some 5, ReviewText.str ("great")⟩

/-- Witness data for C1: the later, new review. -/
def c1Rev2 : RawReview := ⟨none, some ("Bob"), some 2, ReviewText.str ("bad")⟩

/-- Witness for C1: a concrete backfill run persists one review silently;
the following live run alerts exactly once for the one new review. -/
theorem c1_backfill_suppression_witness :
    (∀ r ∈ (⟨⟨[c1Biz], [], [], [], [], 0⟩, []⟩ : SysState).db.seen_reviews, r.business_id ≠ c1Biz.id) ∧
    (checkBusinessMon true c1Biz ("P1") [c1Rev1] ⟨⟨[c1Biz], [], [], [], [], 0⟩, []⟩).outbox = [] ∧
    (checkBusinessMon true c1Biz ("P1") [c1Rev1] ⟨⟨[c1Biz], [], [], [], [], 0⟩, []⟩).db.seen_reviews.length = 1 ∧
    (checkBusinessMon true c1Biz ("P1") ([c1Rev1] ++ [c1Rev2])
        (checkBusinessMon true c1Biz ("P1") [c1Rev1] ⟨⟨[c1Biz], [], [], [], [], 0⟩, []⟩)).outbox.length =
      (checkBusinessMon true c1Biz ("P1") [c1Rev1] ⟨⟨[c1Biz], [], [], [], [], 0⟩, []⟩).outbox.length + 1 := by
  have h := c1_backfill_suppression c1Biz ("P1") [c1Rev1] c1Rev2
    ⟨⟨[c1Biz], [], [], [], [], 0⟩, []⟩
    (by intro r hr; cases hr) (by intro rev _ r hr; cases hr)
    (by decide) (by decide) (by decide)
  refine ⟨(by intro r hr; cases hr), ?_, h.2.1, h.2.2.1⟩
  rw [h.1]

/-! ## Idempotence machinery for stock sync -/

/-- Database well-formedness: stock-item ids are below the id sequence
and pairwise distinct (the store's primary-key guarantee). -/
def itemIdsOk (db : DB) : Prop :=
  (∀ i ∈ db.stock_items, i.id < db.nextId) ∧
  db.stock_items.Pairwise (fun a b => a.id ≠ b.id)

/-- Two stored items with one id are one item. -/
lemma itemIdsOk_unique {db : DB} (h : itemIdsOk db) {x y : StockItem}
    (hx : x ∈ db.stock_items) (hy : y ∈ db.stock_items) (hid : x.id = y.id) : x = y := by
  by_contra hne
  have hsym : Symmetric (fun a b : StockItem => a.id ≠ b.id) := fun a b hab hba => hab hba.symm
  exact List.Pairwise.forall hsym h.2 hx hy hne hid

/-- `updItem` never changes the id. -/
lemma updItem_id (row : SheetRow) (q th r : ℚ) (now : Int) (eid : Nat) (i : StockItem) :
    (updItem row q th r now eid i).id = i.id := by
  unfold updItem
  split
  · rfl
  · rfl

/-- `updItem` never changes the business. -/
lemma updItem_business_id (row : SheetRow) (q th r : ℚ) (now : Int) (eid : Nat) (i : StockItem) :
    (updItem row q th r now eid i).business_id = i.business_id := by
  unfold updItem
  split
  · rfl
  · rfl

/-- `updItem` never changes the name. -/
lemma updItem_name (row : SheetRow) (q th r : ℚ) (now : Int) (eid : Nat) (i : StockItem) :
    (updItem row q th r now eid i).name = i.name := by
  unfold updItem
  split
  · rfl
  · rfl

/-- `updItem` leaves items with another id completely alone. -/
lemma updItem_other (row : SheetRow) (q th r : ℚ) (now : Int) (eid : Nat) (i : StockItem)
    (h : i.id ≠ eid) : updItem row q th r now eid i = i := by
  unfold updItem
  rw [if_neg (by simpa using h)]

/-- `updItem` sets the quantity of the matched item. -/
lemma updItem_hit (row : SheetRow) (q th r : ℚ) (now : Int) (eid : Nat) (i : StockItem)
    (h : i.id = eid) : (updItem row q th r now eid i).current_quantity = q := by
  unfold updItem
  rw [if_pos (by simpa using h)]

/-- Searching an updated table is updating the search result: the update
touches no field the key predicate reads. -/
lemma findItem_map_upd (db : DB) (row : SheetRow) (q th r : ℚ) (now : Int) (eid : Nat)
    (bid : Nat) (nm : String) :
    (db.stock_items.map (updItem row q th r now eid)).find?
        (fun i => i.business_id == bid && i.name == nm) =
      (db.stock_items.find? (fun i => i.business_id == bid && i.name == nm)).map
        (updItem row q th r now eid) := by
  rw [List.find?_map]
  have heq : ((fun i : StockItem => i.business_id == bid && i.name == nm) ∘
      updItem row q th r now eid) =
      (fun i : StockItem => i.business_id == bid && i.name == nm) := by
    funext x
    simp [Function.comp, updItem_business_id, updItem_name]
  rw [heq]

/-- Skipped rows change nothing. -/
lemma syncRow_invalid (biz : Business) (now : Int) (db : DB) (row : SheetRow)
    (hv : rowValid row = none) : syncRow biz now db row = db := by
  unfold syncRow
  rw [hv]

/-- Unfolding one step of the sync loop. -/
lemma sync_cons (biz : Business) (now : Int) (db : DB) (row : SheetRow) (rest : List SheetRow) :
    sync_stock_to_supabase biz now db (row :: rest) =
      sync_stock_to_supabase biz now (syncRow biz now db row) rest := rfl

/-- The update branch of `syncRow`, characterized. -/
lemma syncRow_update_items (biz : Business) (now : Int) (db : DB) (row : SheetRow)
    (q th r : ℚ) (existing : StockItem)
    (hv : rowValid row = some (q, th, r))
    (hf : findItem db biz.id row.itemName = some existing) :
    (syncRow biz now db row).stock_items =
      db.stock_items.map (updItem row q th r now existing.id) ∧
    (syncRow biz now db row).nextId = db.nextId ∧
    (syncRow biz now db row).stock_movements =
      (if q ≠ existing.current_quantity then
        db.stock_movements ++
          [⟨biz.id, row.itemName, q - existing.current_quantity, q, "sheet_update", now⟩]
      else db.stock_movements) := by
  unfold syncRow
  rw [hv, hf]
  by_cases hd : q ≠ existing.current_quantity
  · simp [hd]
  · simp [hd]

/-- The insert branch of `syncRow`, characterized. -/
lemma syncRow_insert_items (biz : Business) (now : Int) (db : DB) (row : SheetRow)
    (q th r : ℚ)
    (hv : rowValid row = some (q, th, r))
    (hf : findItem db biz.id row.itemName = none) :
    (syncRow biz now db row).stock_items = db.stock_items ++
      [⟨db.nextId, biz.id, row.itemName, q, row.unit, th, r,
        row.supplierName, row.supplierWa, now⟩] ∧
    (syncRow biz now db row).nextId = db.nextId + 1 ∧
    (syncRow biz now db row).stock_movements = db.stock_movements := by
  unfold syncRow
  rw [hv, hf]
  exact ⟨rfl, rfl, rfl⟩

/-- After a valid row is synced, the stored quantity for its key is the
sheet quantity. -/
lemma syncRow_storedQty_self (biz : Business) (now : Int) (db : DB) (row : SheetRow)
    (q th r : ℚ) (hv : rowValid row = some (q, th, r)) :
    storedQty (syncRow biz now db row) biz.id row.itemName = some q := by
  cases hf : findItem db biz.id row.itemName with
  | some existing =>
    obtain ⟨hitems, _, _⟩ := syncRow_update_items biz now db row q th r existing hv hf
    unfold storedQty findItem
    rw [hitems, findItem_map_upd]
    have hf' : db.stock_items.find?
        (fun i => i.business_id == biz.id && i.name == row.itemName) = some existing := hf
    rw [hf']
    simp [updItem_hit _ _ _ _ _ _ existing rfl]
  | none =>
    obtain ⟨hitems, _, _⟩ := syncRow_insert_items biz now db row q th r hv hf
    unfold storedQty findItem
    rw [hitems, List.find?_append]
    have hf' : db.stock_items.find?
        (fun i => i.business_id == biz.id && i.name == row.itemName) = none := hf
    rw [hf']
    simp [List.find?]

/-- Syncing one row does not disturb the stored quantity of any other
(business, name) key, given primary-key well-formedness. -/
lemma syncRow_storedQty_other (biz : Business) (now : Int) (db : DB) (row : SheetRow)
    (bid : Nat) (nm : String) (hwf : itemIdsOk db)
    (hne : ¬ (bid = biz.id ∧ nm = row.itemName)) :
    storedQty (syncRow biz now db row) bid nm = storedQty db bid nm := by
  cases hv : rowValid row with
  | none => rw [syncRow_invalid biz now db row hv]
  | some t =>
    obtain ⟨q, th, r⟩ := t
    cases hf : findItem db biz.id row.itemName with
    | some existing =>
      obtain ⟨hitems, _, _⟩ := syncRow_update_items biz now db row q th r existing hv hf
      unfold storedQty findItem
      rw [hitems, findItem_map_upd]
      cases hfo : db.stock_items.find? (fun i => i.business_id == bid && i.name == nm) with
      | none => rfl
      | some y =>
        simp only [Option.map_some']
        congr 1
        by_cases hy : y.id = existing.id
        · have hyx : y = existing := itemIdsOk_unique hwf (List.mem_of_find?_eq_some hfo)
            (List.mem_of_find?_eq_some hf) hy
          have hpy := List.find?_some hfo
          have hpx := List.find?_some hf
          rw [hyx] at hpy
          simp only [Bool.and_eq_true, beq_iff_eq] at hpy hpx
          exact absurd ⟨hpy.1.symm.trans hpx.1, hpy.2.symm.trans hpx.2⟩ hne
        · exact congrArg StockItem.current_quantity (updItem_other row q th r now existing.id y hy)
    | none =>
      obtain ⟨hitems, _, _⟩ := syncRow_insert_items biz now db row q th r hv hf
      unfold storedQty findItem
      rw [hitems, List.find?_append]
      have hnew : ((⟨db.nextId, biz.id, row.itemName, q, row.unit, th, r,
          row.supplierName, row.supplierWa, now⟩ : StockItem).business_id == bid &&
          (⟨db.nextId, biz.id, row.itemName, q, row.unit, th, r,
          row.supplierName, row.supplierWa, now⟩ : StockItem).name == nm) = false := by
        by_cases hb : bid = biz.id
        · have hn : nm ≠ row.itemName := fun hc => hne ⟨hb, hc⟩
          simp
          intro
          exact fun hc => absurd hc.symm hn
        · simp
          intro hc
          exact absurd hc.symm hb
      simp [List.find?, hnew]

/-- Syncing a row preserves primary-key well-formedness. -/
lemma syncRow_wf (biz : Business) (now : Int) (db : DB) (row : SheetRow)
    (hwf : itemIdsOk db) : itemIdsOk (syncRow biz now db row) := by
  cases hv : rowValid row with
  | none => rw [syncRow_invalid biz now db row hv]; exact hwf
  | some t =>
    obtain ⟨q, th, r⟩ := t
    cases hf : findItem db biz.id row.itemName with
    | some existing =>
      obtain ⟨hitems, hnext, _⟩ := syncRow_update_items biz now db row q th r existing hv hf
      constructor
      · intro i hi
        rw [hitems] at hi
        obtain ⟨x, hx, rfl⟩ := List.mem_map.mp hi
        rw [hnext, updItem_id]
        exact hwf.1 x hx
      · rw [hitems, List.pairwise_map]
        refine List.Pairwise.imp ?_ hwf.2
        intro a b hab
        simpa [updItem_id] using hab
    | none =>
      obtain ⟨hitems, hnext, _⟩ := syncRow_insert_items biz now db row q th r hv hf
      constructor
      · intro i hi
        rw [hitems] at hi
        rw [hnext]
        rcases List.mem_append.mp hi with hi | hi
        · have := hwf.1 i hi
          omega
        · rw [List.mem_singleton.mp hi]
          show db.nextId < db.nextId + 1
          omega
      · rw [hitems, List.pairwise_append]
        refine ⟨hwf.2, List.pairwise_singleton _ _, ?_⟩
        intro a ha b hb
        rw [List.mem_singleton.mp hb]
        have := hwf.1 a ha
        show a.id ≠ db.nextId
        omega

/-- A whole sync run preserves primary-key well-formedness. -/
lemma sync_wf (biz : Business) (now : Int) :
    ∀ (rows : List SheetRow) (db : DB), itemIdsOk db →
      itemIdsOk (sync_stock_to_supabase biz now db rows) := by
  intro rows
  induction rows with
  | nil => exact fun db h => h
  | cons row rest ih =>
    intro db h
    rw [sync_cons]
    exact ih _ (syncRow_wf biz now db row h)

/-- A sync run over rows that never mention a name leaves that key's
stored quantity alone. -/
lemma sync_storedQty_not_mem (biz : Business) (now : Int) (nm : String) :
    ∀ (rows : List SheetRow) (db : DB), itemIdsOk db →
      (∀ row ∈ rows, row.itemName ≠ nm) →
      storedQty (sync_stock_to_supabase biz now db rows) biz.id nm =
        storedQty db biz.id nm := by
  intro rows
  induction rows with
  | nil => intro db _ _; rfl
  | cons row rest ih =>
    intro db hwf hmem
    rw [sync_cons]
    rw [ih _ (syncRow_wf biz now db row hwf) (fun x hx => hmem x (List.mem_cons_of_mem _ hx))]
    exact syncRow_storedQty_other biz now db row biz.id nm hwf
      (fun hc => hmem row (List.mem_cons_self _ _) hc.2.symm)

/-- After a sync run over rows with distinct names, every valid row's key
stores exactly the sheet quantity. -/
lemma sync_post (biz : Business) (now : Int) :
    ∀ (rows : List SheetRow) (db : DB), itemIdsOk db →
      (rows.map SheetRow.itemName).Nodup →
      ∀ row ∈ rows, ∀ q th r, rowValid row = some (q, th, r) →
        storedQty (sync_stock_to_supabase biz now db rows) biz.id row.itemName = some q := by
  intro rows
  induction rows with
  | nil => intro db _ _ row h; cases h
  | cons row0 rest ih =>
    intro db hwf hnodup row hrow q th r hv
    rw [sync_cons]
    rw [List.map_cons, List.nodup_cons] at hnodup
    rcases List.mem_cons.mp hrow with heq | hmem
    · subst heq
      have hpost := syncRow_storedQty_self biz now db row q th r hv
      have hwf' := syncRow_wf biz now db row hwf
      have hnames : ∀ x ∈ rest, x.itemName ≠ row.itemName := by
        intro x hx hc
        exact hnodup.1 (hc ▸ List.mem_map_of_mem _ hx)
      rw [sync_storedQty_not_mem biz now row.itemName rest _ hwf' hnames]
      exact hpost
    · exact ih (syncRow biz now db row0) (syncRow_wf biz now db row0 hwf) hnodup.2
        row hmem q th r hv

/-- Syncing a row whose sheet quantity already matches the store appends
no movement and preserves every stored quantity. -/
lemma syncRow_noop_storedQty (biz : Business) (now : Int) (db : DB) (row : SheetRow)
    (hwf : itemIdsOk db)
    (hq : ∀ q th r, rowValid row = some (q, th, r) →
      storedQty db biz.id row.itemName = some q) :
    (syncRow biz now db row).stock_movements = db.stock_movements ∧
    (∀ bid nm, storedQty (syncRow biz now db row) bid nm = storedQty db bid nm) := by
  cases hv : rowValid row with
  | none => rw [syncRow_invalid biz now db row hv]; exact ⟨rfl, fun _ _ => rfl⟩
  | some t =>
    obtain ⟨q, th, r⟩ := t
    have hq' := hq q th r hv
    unfold storedQty at hq'
    cases hf : findItem db biz.id row.itemName with
    | none => rw [hf] at hq'; cases hq'
    | some existing =>
      rw [hf] at hq'
      have hqe : existing.current_quantity = q := by simpa using hq'
      obtain ⟨hitems, _, hmv⟩ := syncRow_update_items biz now db row q th r existing hv hf
      constructor
      · rw [hmv, if_neg (by simp [hqe])]
      · intro bid nm
        unfold storedQty findItem
        rw [hitems, findItem_map_upd]
        cases hfo : db.stock_items.find? (fun i => i.business_id == bid && i.name == nm) with
        | none => rfl
        | some y =>
          simp only [Option.map_some']
          congr 1
          by_cases hy : y.id = existing.id
          · have hyx : y = existing := itemIdsOk_unique hwf (List.mem_of_find?_eq_some hfo)
              (List.mem_of_find?_eq_some hf) hy
            rw [updItem_hit row q th r now existing.id y hy, hyx, hqe]
          · exact congrArg StockItem.current_quantity
              (updItem_other row q th r now existing.id y hy)

/-- A sync run over rows whose quantities already match the store inserts
no movement at all. -/
lemma sync_noop (biz : Business) (now : Int) :
    ∀ (rows : List SheetRow) (db : DB), itemIdsOk db →
      (∀ row ∈ rows, ∀ q th r, rowValid row = some (q, th, r) →
        storedQty db biz.id row.itemName = some q) →
      (sync_stock_to_supabase biz now db rows).stock_movements = db.stock_movements := by
  intro rows
  induction rows with
  | nil => intro db _ _; rfl
  | cons row rest ih =>
    intro db hwf hq
    rw [sync_cons]
    obtain ⟨hmv, hpres⟩ := syncRow_noop_storedQty biz now db row hwf
      (fun q th r hv => hq row (List.mem_cons_self _ _) q th r hv)
    rw [ih _ (syncRow_wf biz now db row hwf) ?_, hmv]
    intro x hx q th r hv
    rw [hpres]
    exact hq x (List.mem_cons_of_mem _ hx) q th r hv

/-- `predict_stockout` reads nothing but the movement table. -/
lemma predict_stockout_congr {db1 db2 : DB} (h : db1.stock_movements = db2.stock_movements)
    (now : Int) (bid : Nat) (nm : String) (q : ℚ) :
    predict_stockout db1 now bid nm q = predict_stockout db2 now bid nm q := by
  unfold predict_stockout negMovementsWindow
  rw [h]

/-- `check_stock_levels` reads nothing of the database but movements. -/
lemma check_stock_levels_congr {db1 db2 : DB} (h : db1.stock_movements = db2.stock_movements)
    (now : Int) (biz : Business) (rows : List SheetRow) :
    check_stock_levels db1 now biz rows = check_stock_levels db2 now biz rows := by
  unfold check_stock_levels
  congr 1
  funext row
  cases hv : rowValid row with
  | none => simp [alertOfRow, hv]
  | some t =>
    obtain ⟨q, th, r⟩ := t
    simp only [alertOfRow, hv]
    rw [predict_stockout_congr h]

/-- A `StockMovement` is appended by an upsert exactly when the stored
quantity differs from the new sheet quantity, and then it carries the
signed delta. -/
lemma syncRow_movements_iff (biz : Business) (now : Int) (db : DB) (row : SheetRow) :
    ((syncRow biz now db row).stock_movements ≠ db.stock_movements ↔
      ∃ q th r it, rowValid row = some (q, th, r) ∧
        findItem db biz.id row.itemName = some it ∧ it.current_quantity ≠ q) ∧
    (∀ q th r it, rowValid row = some (q, th, r) →
      findItem db biz.id row.itemName = some it → it.current_quantity ≠ q →
      (syncRow biz now db row).stock_movements = db.stock_movements ++
        [⟨biz.id, row.itemName, q - it.current_quantity, q, "sheet_update", now⟩]) := by
  have happly : ∀ q th r it, rowValid row = some (q, th, r) →
      findItem db biz.id row.itemName = some it → it.current_quantity ≠ q →
      (syncRow biz now db row).stock_movements = db.stock_movements ++
        [⟨biz.id, row.itemName, q - it.current_quantity, q, "sheet_update", now⟩] := by
    intro q th r it hv hf hd
    obtain ⟨_, _, hmv⟩ := syncRow_update_items biz now db row q th r it hv hf
    rw [hmv, if_pos (fun hc => hd hc.symm)]
  refine ⟨⟨?_, ?_⟩, happly⟩
  · intro hne
    cases hv : rowValid row with
    | none => exact absurd (by rw [syncRow_invalid biz now db row hv]) hne
    | some t =>
      obtain ⟨q, th, r⟩ := t
      cases hf : findItem db biz.id row.itemName with
      | none =>
        obtain ⟨_, _, hmv⟩ := syncRow_insert_items biz now db row q th r hv hf
        exact absurd hmv hne
      | some it =>
        obtain ⟨_, _, hmv⟩ := syncRow_update_items biz now db row q th r it hv hf
        by_cases hd : q = it.current_quantity
        · rw [hmv, if_neg (by simp [hd])] at hne
          exact absurd rfl hne
        · exact ⟨q, th, r, it, rfl, rfl, fun hc => hd hc.symm⟩
  · rintro ⟨q, th, r, it, hv, hf, hd⟩
    rw [happly q th r it hv hf hd]
    intro hcon
    have hlen := congrArg List.length hcon
    simp [List.length_append] at hlen

/-! ## C4: stock-sync idempotence -/

/-- C4 (amended: the sheet's item names must be distinct): re-running the
stock sync with unchanged sheet rows appends zero new StockMovement rows
and yields the identical alert set, and — for arbitrary databases and
rows — an upsert appends a StockMovement if and only if the stored
quantity differs from the new sheet quantity (then with the signed
delta).  With duplicate item names in the sheet the first two conjuncts
fail — see the counterexample. -/
theorem c4_sync_idempotent (biz : Business) (t1 t2 tc : Int) (db : DB)
    (rows : List SheetRow)
    (hwf : itemIdsOk db) (hnodup : (rows.map SheetRow.itemName).Nodup) :
    (sync_stock_to_supabase biz t2 (sync_stock_to_supabase biz t1 db rows) rows).stock_movements =
      (sync_stock_to_supabase biz t1 db rows).stock_movements ∧
    check_stock_levels
        (sync_stock_to_supabase biz t2 (sync_stock_to_supabase biz t1 db rows) rows)
        tc biz rows =
      check_stock_levels (sync_stock_to_supabase biz t1 db rows) tc biz rows ∧
    (∀ (tn : Int) (db2 : DB) (row : SheetRow),
      ((syncRow biz tn db2 row).stock_movements ≠ db2.stock_movements ↔
        ∃ q th r it, rowValid row = some (q, th, r) ∧
          findItem db2 biz.id row.itemName = some it ∧ it.current_quantity ≠ q) ∧
      (∀ q th r it, rowValid row = some (q, th, r) →
        findItem db2 biz.id row.itemName = some it → it.current_quantity ≠ q →
        (syncRow biz tn db2 row).stock_movements = db2.stock_movements ++
          [⟨biz.id, row.itemName, q - it.current_quantity, q, "sheet_update", tn⟩])) := by
  have hwf1 := sync_wf biz t1 rows db hwf
  have hmv : (sync_stock_to_supabase biz t2
      (sync_stock_to_supabase biz t1 db rows) rows).stock_movements =
      (sync_stock_to_supabase biz t1 db rows).stock_movements := by
    apply sync_noop biz t2 rows _ hwf1
    intro row hrow q th r hv
    exact sync_post biz t1 rows db hwf hnodup row hrow q th r hv
  exact ⟨hmv, check_stock_levels_congr hmv tc biz rows,
    fun tn db2 row => syncRow_movements_iff biz tn db2 row⟩

/-- Counterexample sheet for C4: two rows with the same item name and
different quantities. -/
def c4Rows : List SheetRow :=
  [⟨"A", some 1, some 10, some 5, "pcs", "Sup", "+1"⟩,
   ⟨"A", some 2, some 10, some 5, "pcs", "Sup", "+1"⟩]

/-- C4 as stated — over arbitrary unchanged sheet data — is false: with a
duplicated item name the first sync run inserts one movement and the
second, identical run inserts two more instead of zero. -/
theorem c4_sync_idempotent_counterexample :
    (sync_stock_to_supabase c1Biz 100 ⟨[], [], [], [], [], 0⟩ c4Rows).stock_movements.length = 1 ∧
    (sync_stock_to_supabase c1Biz 200
        (sync_stock_to_supabase c1Biz 100 ⟨[], [], [], [], [], 0⟩ c4Rows)
        c4Rows).stock_movements.length = 3 := by
  constructor
  · decide
  · decide

/-- Witness sheet for C4: distinct names. -/
def c4GoodRows : List SheetRow :=
  [⟨"A", some 1, some 10, some 5, "pcs", "Sup", "+1"⟩,
   ⟨"B", some 7, some 3, some 5, "pcs", "Sup", "+1"⟩]

/-- Witness for C4: on a well-formed database and a duplicate-free sheet,
the second run adds no movements. -/
theorem c4_sync_idempotent_witness :
    itemIdsOk (⟨[], [], [], [], [], 0⟩ : DB) ∧
    (c4GoodRows.map SheetRow.itemName).Nodup ∧
    (sync_stock_to_supabase c1Biz 200
        (sync_stock_to_supabase c1Biz 100 ⟨[], [], [], [], [], 0⟩ c4GoodRows)
        c4GoodRows).stock_movements =
      (sync_stock_to_supabase c1Biz 100 ⟨[], [], [], [], [], 0⟩ c4GoodRows).stock_movements := by
  have hwf : itemIdsOk (⟨[], [], [], [], [], 0⟩ : DB) :=
    ⟨fun i hi => (by cases hi), List.Pairwise.nil⟩
  have hnd : (c4GoodRows.map SheetRow.itemName).Nodup := by decide
  exact ⟨hwf, hnd,
    (c4_sync_idempotent c1Biz 100 200 0 ⟨[], [], [], [], [], 0⟩ c4GoodRows hwf hnd).1⟩
